import Mathlib

/-!
# Verification of the ghost-agent status-sphere animation core

Shallow embedding of the animation/state code of the repository:

* `src/interface/static/sphere.js` — the GLSL displacement field
  (`snoise`, `fbm`, `getDisplacement`), the per-tick smoothing in
  `animate`, the palette/color-offset logic, and the debounced channel
  state (`setWorkingState`, `setWaitingState`, `triggerSpike`).
* `src/unnamed/part_001` — the "ferrofluid" variant's ridged
  displacement field (`getDisplacement`).
* `src/interface/static/app.js` — the icon-driven state inference
  (`updateStateFromIcon`) layered on top of the sphere API.

JavaScript numbers are modelled as exact rationals (ℚ); `setTimeout`
timers are modelled explicitly as a list of live runtime timers plus the
stored handles, with time in integer milliseconds.
-/

/-! ## GLSL vector helpers (componentwise, as in the shader language) -/

structure Vec3 where
  x : ℚ
  y : ℚ
  z : ℚ
deriving DecidableEq

structure Vec4 where
  x : ℚ
  y : ℚ
  z : ℚ
  w : ℚ
deriving DecidableEq

instance : Add Vec3 := ⟨fun a b => ⟨a.x + b.x, a.y + b.y, a.z + b.z⟩⟩

instance : Sub Vec3 := ⟨fun a b => ⟨a.x - b.x, a.y - b.y, a.z - b.z⟩⟩

instance : Mul Vec3 := ⟨fun a b => ⟨a.x * b.x, a.y * b.y, a.z * b.z⟩⟩

instance : Add Vec4 := ⟨fun a b => ⟨a.x + b.x, a.y + b.y, a.z + b.z, a.w + b.w⟩⟩

instance : Sub Vec4 := ⟨fun a b => ⟨a.x - b.x, a.y - b.y, a.z - b.z, a.w - b.w⟩⟩

instance : Mul Vec4 := ⟨fun a b => ⟨a.x * b.x, a.y * b.y, a.z * b.z, a.w * b.w⟩⟩

instance : Neg Vec4 := ⟨fun a => ⟨-a.x, -a.y, -a.z, -a.w⟩⟩

/-- GLSL `vec * scalar`. -/
instance : HMul Vec3 ℚ Vec3 := ⟨fun a s => ⟨a.x * s, a.y * s, a.z * s⟩⟩

instance : HMul ℚ Vec3 Vec3 := ⟨fun s a => ⟨s * a.x, s * a.y, s * a.z⟩⟩

instance : HMul Vec4 ℚ Vec4 := ⟨fun a s => ⟨a.x * s, a.y * s, a.z * s, a.w * s⟩⟩

instance : HMul ℚ Vec4 Vec4 := ⟨fun s a => ⟨s * a.x, s * a.y, s * a.z, s * a.w⟩⟩

/-- GLSL `vec + scalar` (the scalar is added to every component). -/
instance : HAdd Vec3 ℚ Vec3 := ⟨fun a s => ⟨a.x + s, a.y + s, a.z + s⟩⟩

instance : HAdd ℚ Vec4 Vec4 := ⟨fun s a => ⟨s + a.x, s + a.y, s + a.z, s + a.w⟩⟩

instance : HAdd Vec4 ℚ Vec4 := ⟨fun a s => ⟨a.x + s, a.y + s, a.z + s, a.w + s⟩⟩

/-- GLSL `vec - scalar`. -/
instance : HSub Vec3 ℚ Vec3 := ⟨fun a s => ⟨a.x - s, a.y - s, a.z - s⟩⟩

instance : HSub ℚ Vec4 Vec4 := ⟨fun s a => ⟨s - a.x, s - a.y, s - a.z, s - a.w⟩⟩

def dot3 (a b : Vec3) : ℚ := a.x * b.x + a.y * b.y + a.z * b.z

def dot4 (a b : Vec4) : ℚ := a.x * b.x + a.y * b.y + a.z * b.z + a.w * b.w

def floorQ (q : ℚ) : ℚ := (⌊q⌋ : ℤ)

def floor3 (a : Vec3) : Vec3 := ⟨floorQ a.x, floorQ a.y, floorQ a.z⟩

def floor4 (a : Vec4) : Vec4 := ⟨floorQ a.x, floorQ a.y, floorQ a.z, floorQ a.w⟩

def abs4 (a : Vec4) : Vec4 := ⟨|a.x|, |a.y|, |a.z|, |a.w|⟩

def min3 (a b : Vec3) : Vec3 := ⟨min a.x b.x, min a.y b.y, min a.z b.z⟩

def max3 (a b : Vec3) : Vec3 := ⟨max a.x b.x, max a.y b.y, max a.z b.z⟩

def max4 (a b : Vec4) : Vec4 := ⟨max a.x b.x, max a.y b.y, max a.z b.z, max a.w b.w⟩

/-- GLSL `step(edge, v)`: `0.0` where `v < edge`, else `1.0`. -/
def stepQ (edge v : ℚ) : ℚ := if v < edge then 0 else 1

def step3 (edge v : Vec3) : Vec3 := ⟨stepQ edge.x v.x, stepQ edge.y v.y, stepQ edge.z v.z⟩

def step4 (edge v : Vec4) : Vec4 :=
  ⟨stepQ edge.x v.x, stepQ edge.y v.y, stepQ edge.z v.z, stepQ edge.w v.w⟩

/-- GLSL `mix(a, b, t) = a * (1 - t) + b * t`. -/
def mixQ (a b t : ℚ) : ℚ := a * (1 - t) + b * t

/-- GLSL `clamp(v, lo, hi)`. -/
def clampQ (v lo hi : ℚ) : ℚ := min (max v lo) hi

/-! ## Per-tick exponential smoothing (`sphere.js`, `animate`, lines 349–358)

`animate` reads the targets and actuals at the start of the tick,
computes a single `transitionSpeed`, and updates every smoothed
variable with `actual += (target - actual) * rate`.
-/

/-- The assignment pattern `actual += (target - actual) * rate`
(`sphere.js` lines 354–357, `part_001` lines 253–258). -/
def smoothStep (target rate x : ℚ) : ℚ := x + (target - x) * rate

/-- The smoothed animation variables of `sphere.js` updated by
`animate` lines 349–358, with their targets. -/
structure AnimState where
  spikeStrength : ℚ
  workingState : ℚ
  waitingState : ℚ
  errorState : ℚ
  targetSpikeStrength : ℚ
  targetWorkingState : ℚ
  targetWaitingState : ℚ
  targetErrorState : ℚ
deriving DecidableEq

/-- Line 350 of `sphere.js`:
`let isWaking = (targetWorkingState > workingState + 0.01) || (targetWaitingState > waitingState + 0.01);`. -/
def isWaking (a : AnimState) : Prop :=
  a.targetWorkingState > a.workingState + 0.01 ∨ a.targetWaitingState > a.waitingState + 0.01

instance (a : AnimState) : Decidable (isWaking a) := by
  unfold isWaking; infer_instance

/-- Line 351 of `sphere.js`: `let transitionSpeed = isWaking ? 0.003 : 0.015;`. -/
def transitionSpeed (a : AnimState) : ℚ :=
  if isWaking a then 0.003 else 0.015

/-- Lines 354–357 of `sphere.js`: the four smoothing assignments of one
tick (the rate is computed once, before any of the updates). -/
def animateSmoothing (a : AnimState) : AnimState :=
  { a with
    spikeStrength := smoothStep a.targetSpikeStrength (transitionSpeed a) a.spikeStrength
    workingState := smoothStep a.targetWorkingState (transitionSpeed a) a.workingState
    waitingState := smoothStep a.targetWaitingState (transitionSpeed a) a.waitingState
    errorState := smoothStep a.targetErrorState 0.01 a.errorState }

/-! ## Palette cycling and the event-driven color offset
(`sphere.js` lines 326–341, 393–395) -/

/-- The two color-offset variables of `sphere.js` (lines 19–20). -/
structure ColorState where
  colorOffset : ℚ
  targetColorOffset : ℚ
deriving DecidableEq

/-- Lines 393–395 of `sphere.js`:
`export function triggerNextColor() { targetColorOffset += 1.0; }`. -/
def triggerNextColor (c : ColorState) : ColorState :=
  { c with targetColorOffset := c.targetColorOffset + 1.0 }

/-- Line 331 of `sphere.js` (run once per `animate` tick):
`colorOffset += (targetColorOffset - colorOffset) * 0.02;`. -/
def tickColorOffset (c : ColorState) : ColorState :=
  { c with colorOffset := smoothStep c.targetColorOffset 0.02 c.colorOffset }

/-- Truncation toward zero, as JavaScript's `%` uses. -/
def truncQ (x : ℚ) : ℤ := if 0 ≤ x then ⌊x⌋ else ⌈x⌉

/-- JavaScript's remainder operator `%` on numbers (truncated division). -/
def jsMod (x y : ℚ) : ℚ := x - y * truncQ (x / y)

/-- Line 333 of `sphere.js`: `let cycleSpeed = 0.05;`. -/
def cycleSpeed : ℚ := 0.05

/-- Number of entries of `palette` in `sphere.js` lines 275–280. -/
def paletteLength : ℚ := 4

/-- Line 335 of `sphere.js`:
`let effectiveIndex = (time * cycleSpeed + colorOffset) % palette.length;`. -/
def effectiveIndex (time colorOffset : ℚ) : ℚ :=
  jsMod (time * cycleSpeed + colorOffset) paletteLength

/-! ## Simplex noise (`sphere.js` vertex shader, lines 40–83)

A line-by-line translation of the GLSL `snoise` and its helpers, with
swizzles written out componentwise.
-/

def splat4 (s : ℚ) : Vec4 := ⟨s, s, s, s⟩

/-- GLSL line 40: `vec3 mod289(vec3 x) { return x - floor(x * (1.0 / 289.0)) * 289.0; }`. -/
def mod289v3 (x : Vec3) : Vec3 := x - floor3 (x * ((1 : ℚ) / 289)) * (289 : ℚ)

/-- GLSL line 41: `vec4 mod289(vec4 x) { return x - floor(x * (1.0 / 289.0)) * 289.0; }`. -/
def mod289v4 (x : Vec4) : Vec4 := x - floor4 (x * ((1 : ℚ) / 289)) * (289 : ℚ)

/-- GLSL line 42: `vec4 permute(vec4 x) { return mod289(((x*34.0)+1.0)*x); }`. -/
def permute (x : Vec4) : Vec4 := mod289v4 ((x * (34.0 : ℚ) + (1.0 : ℚ)) * x)

/-- GLSL line 43:
`vec4 taylorInvSqrt(vec4 r) { return 1.79284291400159 - 0.85373472095314 * r; }`. -/
def taylorInvSqrt (r : Vec4) : Vec4 := (1.79284291400159 : ℚ) - (0.85373472095314 : ℚ) * r

/-- GLSL lines 45–83: the simplex-noise kernel `snoise`. -/
def snoise (v : Vec3) : ℚ :=
  -- const vec2 C = vec2(1.0/6.0, 1.0/3.0); const vec4 D = vec4(0.0, 0.5, 1.0, 2.0);
  let Cx : ℚ := 1 / 6
  let Cy : ℚ := 1 / 3
  -- vec3 i = floor(v + dot(v, C.yyy));
  let i₀ := floor3 (v + dot3 v ⟨Cy, Cy, Cy⟩)
  -- vec3 x0 = v - i + dot(i, C.xxx);
  let x0 := (v - i₀) + dot3 i₀ ⟨Cx, Cx, Cx⟩
  -- vec3 g = step(x0.yzx, x0.xyz);
  let g := step3 ⟨x0.y, x0.z, x0.x⟩ x0
  -- vec3 l = 1.0 - g;
  let l : Vec3 := ⟨1 - g.x, 1 - g.y, 1 - g.z⟩
  -- vec3 i1 = min(g.xyz, l.zxy); vec3 i2 = max(g.xyz, l.zxy);
  let i1 := min3 g ⟨l.z, l.x, l.y⟩
  let i2 := max3 g ⟨l.z, l.x, l.y⟩
  -- vec3 x1 = x0 - i1 + C.xxx; vec3 x2 = x0 - i2 + C.yyy; vec3 x3 = x0 - D.yyy;
  let x1 := (x0 - i1) + Cx
  let x2 := (x0 - i2) + Cy
  let x3 := x0 - (0.5 : ℚ)
  -- i = mod289(i);
  let i' := mod289v3 i₀
  -- vec4 p = permute(permute(permute(i.z + vec4(0.0, i1.z, i2.z, 1.0))
  --          + i.y + vec4(0.0, i1.y, i2.y, 1.0)) + i.x + vec4(0.0, i1.x, i2.x, 1.0));
  let p := permute ((permute ((permute (i'.z + (⟨0, i1.z, i2.z, 1⟩ : Vec4))
              + i'.y + (⟨0, i1.y, i2.y, 1⟩ : Vec4)))
              + i'.x + (⟨0, i1.x, i2.x, 1⟩ : Vec4)))
  -- float n_ = 0.142857142857; vec3 ns = n_ * D.wyz - D.xzx;
  let n₁ : ℚ := 0.142857142857
  let ns : Vec3 := (n₁ * (⟨2, 0.5, 1⟩ : Vec3)) - (⟨0, 1, 0⟩ : Vec3)
  -- vec4 j = p - 49.0 * floor(p * ns.z * ns.z);
  let j := p - (49.0 : ℚ) * floor4 (p * ns.z * ns.z)
  -- vec4 x_ = floor(j * ns.z); vec4 y_ = floor(j - 7.0 * x_);
  let x' := floor4 (j * ns.z)
  let y' := floor4 (j - (7.0 : ℚ) * x')
  -- vec4 x = x_ * ns.x + ns.yyyy; vec4 y = y_ * ns.x + ns.yyyy;
  let xv := x' * ns.x + splat4 ns.y
  let yv := y' * ns.x + splat4 ns.y
  -- vec4 h = 1.0 - abs(x) - abs(y);
  let h := ((1 : ℚ) - abs4 xv) - abs4 yv
  -- vec4 b0 = vec4(x.xy, y.xy); vec4 b1 = vec4(x.zw, y.zw);
  let b0 : Vec4 := ⟨xv.x, xv.y, yv.x, yv.y⟩
  let b1 : Vec4 := ⟨xv.z, xv.w, yv.z, yv.w⟩
  -- vec4 s0 = floor(b0)*2.0 + 1.0; vec4 s1 = floor(b1)*2.0 + 1.0;
  let s0 := floor4 b0 * (2.0 : ℚ) + (1.0 : ℚ)
  let s1 := floor4 b1 * (2.0 : ℚ) + (1.0 : ℚ)
  -- vec4 sh = -step(h, vec4(0.0));
  let sh := -(step4 h (splat4 0))
  -- vec4 a0 = b0.xzyw + s0.xzyw * sh.xxyy; vec4 a1 = b1.xzyw + s1.xzyw * sh.zzww;
  let a0 := (⟨b0.x, b0.z, b0.y, b0.w⟩ : Vec4) + (⟨s0.x, s0.z, s0.y, s0.w⟩ : Vec4) * (⟨sh.x, sh.x, sh.y, sh.y⟩ : Vec4)
  let a1 := (⟨b1.x, b1.z, b1.y, b1.w⟩ : Vec4) + (⟨s1.x, s1.z, s1.y, s1.w⟩ : Vec4) * (⟨sh.z, sh.z, sh.w, sh.w⟩ : Vec4)
  -- vec3 p0 = vec3(a0.xy, h.x); ... vec3 p3 = vec3(a1.zw, h.w);
  let p0 : Vec3 := ⟨a0.x, a0.y, h.x⟩
  let p1 : Vec3 := ⟨a0.z, a0.w, h.y⟩
  let p2 : Vec3 := ⟨a1.x, a1.y, h.z⟩
  let p3 : Vec3 := ⟨a1.z, a1.w, h.w⟩
  -- vec4 norm = taylorInvSqrt(vec4(dot(p0,p0), dot(p1,p1), dot(p2,p2), dot(p3,p3)));
  let norm := taylorInvSqrt ⟨dot3 p0 p0, dot3 p1 p1, dot3 p2 p2, dot3 p3 p3⟩
  -- p0 *= norm.x; p1 *= norm.y; p2 *= norm.z; p3 *= norm.w;
  let q0 := p0 * norm.x
  let q1 := p1 * norm.y
  let q2 := p2 * norm.z
  let q3 := p3 * norm.w
  -- vec4 m = max(0.6 - vec4(dot(x0,x0), dot(x1,x1), dot(x2,x2), dot(x3,x3)), 0.0);
  let m := max4 ((0.6 : ℚ) - (⟨dot3 x0 x0, dot3 x1 x1, dot3 x2 x2, dot3 x3 x3⟩ : Vec4)) (splat4 0)
  -- m = m * m;
  let m' := m * m
  -- return 42.0 * dot(m*m, vec4(dot(p0,x0), dot(p1,x1), dot(p2,x2), dot(p3,x3)));
  (42.0 : ℚ) * dot4 (m' * m') ⟨dot3 q0 x0, dot3 q1 x1, dot3 q2 x2, dot3 q3 x3⟩

/-! ## Fractal Brownian motion and the displacement field
(`sphere.js` lines 85–110) -/

/-- GLSL line 88: `vec3 shift = vec3(100.0);`. -/
def fbmShift : Vec3 := ⟨100.0, 100.0, 100.0⟩

/-- The `for` loop of `fbm` (GLSL lines 89–93), with the loop counter
made explicit: `v += a * snoise(x); x = x * 2.0 + shift; a *= 0.5;`. -/
def fbmLoop : ℕ → ℚ → ℚ → Vec3 → ℚ
  | 0, v, _, _ => v
  | n + 1, v, a, x => fbmLoop n (v + a * snoise x) (a * 0.5) (x * (2.0 : ℚ) + fbmShift)

/-- GLSL lines 85–95: `fbm` sums 4 noise octaves starting from
`v = 0.0`, `a = 0.5`. -/
def fbm (x : Vec3) : ℚ := fbmLoop 4 0.0 0.5 x

/-- GLSL lines 97–110 of `sphere.js`: the displacement field
`getDisplacement`, a function of the vertex position and the uniforms
`uTime`, `uSpikeStrength`, `uWorkingState`, `uWaitingState`. -/
def getDisplacement (position : Vec3) (uTime uSpikeStrength uWorkingState uWaitingState : ℚ) : ℚ :=
  -- vec3 rp = p + vec3(uTime * 0.1, uTime * 0.15, -uTime * 0.05);
  let rp := position + (⟨uTime * 0.1, uTime * 0.15, -(uTime * 0.05)⟩ : Vec3)
  -- float idleNoise = fbm(rp * 1.2) * 0.45 + snoise(rp * 2.5 - uTime * 0.2) * 0.17;
  let idleNoise := fbm (rp * (1.2 : ℚ)) * 0.45 + snoise (rp * (2.5 : ℚ) - uTime * 0.2) * 0.17
  -- float activity = max(uWorkingState, uWaitingState);
  let activity := max uWorkingState uWaitingState
  -- float activeNoise = fbm(rp * 3.0 + uTime * 0.5) * 0.8;
  let activeNoise := fbm (rp * (3.0 : ℚ) + uTime * 0.5) * 0.8
  -- float d = mix(idleNoise, activeNoise, activity);
  let d := mixQ idleNoise activeNoise activity
  -- return d * uSpikeStrength;
  d * uSpikeStrength

/-! ## The ridged ("ferrofluid") displacement field
(`src/unnamed/part_001`, lines 77–100)

The GLSL `pow` builtin takes a non-integer exponent (`uSharpness` is a
smoothed float), so it is passed in as an explicit function parameter
`powf`; everything else is translated literally.
-/

namespace Ferro

/-- GLSL lines 77–100 of `part_001`: the ridge-noise displacement
field `getDisplacement` of the ferrofluid variant. -/
def getDisplacement (powf : ℚ → ℚ → ℚ) (p : Vec3)
    (uTime uSpikeStrength uSharpness uTremor uWorking : ℚ) : ℚ :=
  -- float t = uTime * 0.4;
  let t := uTime * 0.4
  -- float baseAmp = 0.1 * (1.0 - clamp(uWorking * 1.5, 0.0, 1.0));
  let baseAmp := 0.1 * (1 - clampQ (uWorking * 1.5) 0.0 1.0)
  -- float baseNoise = snoise(p * 1.5 + t * 0.5) * baseAmp;
  let baseNoise := snoise (p * (1.5 : ℚ) + t * 0.5) * baseAmp
  -- vec3 p1 = p * 2.5 + vec3(t * 1.2, -t * 0.8, t * 0.5);
  let p1 := p * (2.5 : ℚ) + (⟨t * 1.2, -(t * 0.8), t * 0.5⟩ : Vec3)
  -- float noiseVal = snoise(p1);
  let noiseVal := snoise p1
  -- float ridge = 1.0 - abs(noiseVal);
  let ridge := 1 - |noiseVal|
  -- ridge = pow(ridge, uSharpness);
  let ridge' := powf ridge uSharpness
  -- float tremorNoise = snoise(p * 8.0 + uTime * 6.0) * uTremor;
  let tremorNoise := snoise (p * (8.0 : ℚ) + uTime * 6.0) * uTremor
  -- float activeSpikes = ridge * uSpikeStrength;
  let activeSpikes := ridge' * uSpikeStrength
  -- return baseNoise + activeSpikes + tremorNoise;
  baseNoise + activeSpikes + tremorNoise

end Ferro

/-! ## Channel state and `setTimeout` timers

`sphere.js` keeps one stored handle per debounced channel
(`workingTimeout`, `waitingTimeout`, lines 404 and 424) while
`triggerSpike` (line 392) calls `setTimeout` without storing a handle.
`app.js` adds its own handle `workTimer` (line 108) and the
`isProcessingRequest` flag (line 20).

The JavaScript runtime is modelled explicitly: `timers` is the list of
live one-shot timers (in creation order, which for the fixed 2000 ms
delays used here is also deadline order), each with a unique id drawn
from `nextId`; a stored handle is an `Option` of a timer id.
`clearTimeout` removes the timer with that id from the runtime, if it
is still live.  Time is in integer milliseconds.
-/

/-- Which callback a live timer will run. -/
inductive TKind where
  /-- `sphere.js` lines 409–412: `targetWorkingState = 1.0; workingTimeout = null;`. -/
  | workAct : TKind
  /-- `sphere.js` lines 428–431: `targetWaitingState = 1.0; waitingTimeout = null;`. -/
  | waitAct : TKind
  /-- `sphere.js` line 392: `targetErrorState = 0.0;`. -/
  | errReset : TKind
  /-- `app.js` lines 116–121: `if (!isProcessingRequest) setWorkingState(false);`. -/
  | appWorkOff : TKind
deriving DecidableEq

/-- A live one-shot timer: its `setTimeout` id, absolute deadline (ms),
and callback. -/
structure Timer where
  id : ℕ
  deadline : ℕ
  kind : TKind
deriving DecidableEq

/-- The mutable state of `sphere.js` (targets and stored handles) and
`app.js` (`workTimer`, `isProcessingRequest`), together with the live
runtime timers. -/
structure S where
  targetWorkingState : ℚ
  targetWaitingState : ℚ
  targetErrorState : ℚ
  workingTimeout : Option ℕ
  waitingTimeout : Option ℕ
  workTimer : Option ℕ
  isProcessingRequest : Bool
  timers : List Timer
  nextId : ℕ
deriving DecidableEq

/-- The module-level initial state: all targets `0.0`, no handles, no
live timers. -/
def initS : S :=
  { targetWorkingState := 0
    targetWaitingState := 0
    targetErrorState := 0
    workingTimeout := none
    waitingTimeout := none
    workTimer := none
    isProcessingRequest := false
    timers := []
    nextId := 0 }

/-- Remove the timer with id `i` from the runtime (`clearTimeout`);
a no-op if it already fired. -/
def removeId (i : ℕ) (l : List Timer) : List Timer := l.filter (fun tm => tm.id != i)

/-- Register a new `setTimeout` of kind `k` with absolute deadline `d`,
returning the fresh id implicitly through `nextId`. -/
def schedule (k : TKind) (d : ℕ) (s : S) : S :=
  { s with timers := s.timers ++ [⟨s.nextId, d, k⟩], nextId := s.nextId + 1 }

/-- Lines 405–422 of `sphere.js` (`setWorkingState`), called at
absolute time `now`.  Activation is debounced by 2000 ms and guarded by
`targetWorkingState < 0.5 && !workingTimeout`; deactivation cancels the
pending timer and zeroes the target immediately. -/
def setWorkingState (isWorking : Bool) (now : ℕ) (s : S) : S :=
  if isWorking then
    if s.targetWorkingState < 0.5 ∧ s.workingTimeout = none then
      { schedule .workAct (now + 2000) s with workingTimeout := some s.nextId }
    else s
  else
    { s with
      timers := match s.workingTimeout with
        | some i => removeId i s.timers
        | none => s.timers
      workingTimeout := none
      targetWorkingState := 0 }

/-- Lines 425–440 of `sphere.js` (`setWaitingState`): identical to
`setWorkingState` on the waiting channel. -/
def setWaitingState (isWaiting : Bool) (now : ℕ) (s : S) : S :=
  if isWaiting then
    if s.targetWaitingState < 0.5 ∧ s.waitingTimeout = none then
      { schedule .waitAct (now + 2000) s with waitingTimeout := some s.nextId }
    else s
  else
    { s with
      timers := match s.waitingTimeout with
        | some i => removeId i s.timers
        | none => s.timers
      waitingTimeout := none
      targetWaitingState := 0 }

/-- Line 392 of `sphere.js`:
`export function triggerSpike() { targetErrorState = 1.0; setTimeout(() => { targetErrorState = 0.0; }, 2000); }`.
No handle is stored and nothing is cancelled. -/
def triggerSpike (now : ℕ) (s : S) : S :=
  schedule .errReset (now + 2000) { s with targetErrorState := 1 }

/-- The working icon set of `app.js` line 17. -/
def WORKING_ICONS : List String :=
  ["🧠", "🔍", "⚙️", "🔨", "⚡", "💡", "📡", "💾", "🛡️", "🔑", "🔓", "🚀", "🔮",
   "🧬", "🔬", "🔭", "🩺", "🧩", "📈", "📊", "📋"]

/-- The idle icon set of `app.js` line 18. -/
def IDLE_ICONS : List String := ["✅", "❌", "🛑", "😴", "💤"]

/-- Lines 109–126 of `app.js` (`updateStateFromIcon`): a working icon
calls `setWorkingState(true)` and resets the app-level 2000 ms
auto-deactivation timer `workTimer`; an idle icon calls
`setWorkingState(false)`; anything else is ignored.  A no-op while
`isProcessingRequest` is set. -/
def updateStateFromIcon (icon : String) (now : ℕ) (s : S) : S :=
  if s.isProcessingRequest then s
  else if icon ∈ WORKING_ICONS then
    -- setWorkingState(true); clearTimeout(workTimer); workTimer = setTimeout(..., 2000);
    let s1 := setWorkingState true now s
    let s2 := { s1 with timers := match s1.workTimer with
                  | some i => removeId i s1.timers
                  | none => s1.timers }
    { schedule .appWorkOff (now + 2000) s2 with workTimer := some s2.nextId }
  else if icon ∈ IDLE_ICONS then
    setWorkingState false now s
  else s

/-- Run the callback of a live timer `tm` (which the runtime removes
as it fires). -/
def fireTimer (tm : Timer) (s : S) : S :=
  let s' := { s with timers := removeId tm.id s.timers }
  match tm.kind with
  | .workAct => { s' with targetWorkingState := 1, workingTimeout := none }
  | .waitAct => { s' with targetWaitingState := 1, waitingTimeout := none }
  | .errReset => { s' with targetErrorState := 0 }
  | .appWorkOff =>
      if s'.isProcessingRequest then s' else setWorkingState false tm.deadline s'

/-- Fire, one at a time and in queue order, every live timer whose
deadline has passed by time `t`.  `fuel` bounds the number of firings;
none of the modelled callbacks schedules a new timer, so
`s.timers.length` is always enough fuel.  Also returns the trace of
intermediate states. -/
def advanceAux : ℕ → ℕ → S → List S × S
  | 0, _, s => ([], s)
  | fuel + 1, t, s =>
    match s.timers.find? (fun tm => tm.deadline ≤ t) with
    | none => ([], s)
    | some tm =>
      let s' := fireTimer tm s
      let r := advanceAux fuel t s'
      (s' :: r.1, r.2)

/-- Advance the runtime clock to time `t`, firing every due timer. -/
def advanceTo (t : ℕ) (s : S) : S := (advanceAux s.timers.length t s).2

/-- A timed external command: one of the entry points of `sphere.js` /
`app.js` invoked at absolute time `t`. -/
inductive Cmd where
  | setWorking (b : Bool) : Cmd
  | setWaiting (b : Bool) : Cmd
  | spike : Cmd
  | icon (name : String) : Cmd
deriving DecidableEq

def applyCmd (c : Cmd) (t : ℕ) (s : S) : S :=
  match c with
  | .setWorking b => setWorkingState b t s
  | .setWaiting b => setWaitingState b t s
  | .spike => triggerSpike t s
  | .icon name => updateStateFromIcon name t s

/-- A command paired with its arrival time. -/
structure TCmd where
  t : ℕ
  cmd : Cmd
deriving DecidableEq

/-- Process a (time-sorted) list of external commands: before each
command, fire the timers that came due, then run the command.  Returns
the trace of every intermediate state (after each timer firing and
after each command) and the final state. -/
def runAux : List TCmd → S → List S × S
  | [], s => ([], s)
  | c :: rest, s =>
    let a := advanceAux s.timers.length c.t s
    let s1 := applyCmd c.cmd c.t a.2
    let r := runAux rest s1
    (a.1 ++ s1 :: r.1, r.2)

def run (cmds : List TCmd) (s : S) : S := (runAux cmds s).2

/-- Every state the system passes through while processing `cmds`,
starting state included. -/
def runTrace (cmds : List TCmd) (s : S) : List S := s :: (runAux cmds s).1

/-- The state observable at time `t`: all commands issued at or before
`t` have been processed and all timers due by `t` have fired. -/
def observe (cmds : List TCmd) (t : ℕ) : S :=
  advanceTo t (run (cmds.filter (fun c => c.t ≤ t)) initS)

/-! ## Derived notions used by the statements -/

/-- Number of live timers of kind `k`. -/
def countKind (k : TKind) (l : List Timer) : ℕ := l.countP (fun tm => tm.kind == k)

/-- A stored channel handle is linked to the runtime: `none` means no
live timer of that channel's kind, `some i` means the channel's live
timers are exactly the one with id `i` (and id `i` is of that kind). -/
def HandleLinked (h : Option ℕ) (k : TKind) (l : List Timer) : Prop :=
  match h with
  | none => ∀ tm ∈ l, tm.kind ≠ k
  | some i =>
    (∃ tm ∈ l, tm.id = i ∧ tm.kind = k)
    ∧ ∀ tm ∈ l, (tm.kind = k → tm.id = i) ∧ (tm.id = i → tm.kind = k)

/-- The app-level handle `workTimer` may be stale (its timer already
fired), so only the weaker link holds: every live `appWorkOff` timer
carries the stored id and vice versa. -/
def AppLinked (h : Option ℕ) (l : List Timer) : Prop :=
  match h with
  | none => ∀ tm ∈ l, tm.kind ≠ TKind.appWorkOff
  | some i => ∀ tm ∈ l, (tm.kind = TKind.appWorkOff → tm.id = i) ∧ (tm.id = i → tm.kind = TKind.appWorkOff)

/-- State invariant: timer ids are fresh and pairwise distinct, stored
handle ids are below the id counter, and each handle is linked to the
runtime queue. -/
def SInv (s : S) : Prop :=
  (∀ tm ∈ s.timers, tm.id < s.nextId)
  ∧ s.timers.Pairwise (fun a b => a.id ≠ b.id)
  ∧ (∀ i, s.workingTimeout = some i → i < s.nextId)
  ∧ (∀ i, s.waitingTimeout = some i → i < s.nextId)
  ∧ (∀ i, s.workTimer = some i → i < s.nextId)
  ∧ HandleLinked s.workingTimeout .workAct s.timers
  ∧ HandleLinked s.waitingTimeout .waitAct s.timers
  ∧ AppLinked s.workTimer s.timers

/-- The two-command trace of the no-flicker scenario on the working
channel: activate at `t0`, deactivate at `t1`. -/
def actDeactWorking (t0 t1 : ℕ) : List TCmd :=
  [⟨t0, .setWorking true⟩, ⟨t1, .setWorking false⟩]

/-- The no-flicker scenario on the waiting channel. -/
def actDeactWaiting (t0 t1 : ℕ) : List TCmd :=
  [⟨t0, .setWaiting true⟩, ⟨t1, .setWaiting false⟩]

/-- Two error pulses: one at time `0`, one at time `t1`. -/
def spikePair (t1 : ℕ) : List TCmd := [⟨0, .spike⟩, ⟨t1, .spike⟩]

/-- A stream of identical icon events at the given times. -/
def iconCmds (icon : String) (ts : List ℕ) : List TCmd :=
  ts.map (fun t => ⟨t, .icon icon⟩)

/-- Shape of the state after processing a burst of working icons whose
last arrival was at `tlast`, starting from `initS` (no user request in
flight): the app-level auto-deactivation timer is armed for
`tlast + 2000`, and the working channel is either still pending
activation (with its own live timer, deadline at most `tlast + 2000`)
or already active. -/
def InvC10 (tlast : ℕ) (s : S) : Prop :=
  ∃ ja n, ja < n ∧
    ((∃ jw dW, jw < ja ∧ tlast < dW ∧ dW ≤ tlast + 2000 ∧
        s = { targetWorkingState := 0, targetWaitingState := 0, targetErrorState := 0,
              workingTimeout := some jw, waitingTimeout := none, workTimer := some ja,
              isProcessingRequest := false,
              timers := [⟨jw, dW, .workAct⟩, ⟨ja, tlast + 2000, .appWorkOff⟩],
              nextId := n })
     ∨ s = { targetWorkingState := 1, targetWaitingState := 0, targetErrorState := 0,
             workingTimeout := none, waitingTimeout := none, workTimer := some ja,
             isProcessingRequest := false,
             timers := [⟨ja, tlast + 2000, .appWorkOff⟩],
             nextId := n })

/-! ## Theorems -/

/-- C6: for the update rule `actual += (target - actual) * rate` with a
fixed `target` and a constant `rate ∈ (0,1)`, the distance
`|target - actual|` contracts by the factor `1 - rate` (in particular it
is non-increasing from one tick to the next, also along iterates), and
`actual` moves monotonically toward `target` without overshooting. -/
theorem smoothStep_monotone_convergence (target rate x : ℚ) (h0 : 0 < rate) (h1 : rate < 1) :
    |target - smoothStep target rate x| = (1 - rate) * |target - x|
    ∧ |target - smoothStep target rate x| ≤ |target - x|
    ∧ (x ≤ target → x ≤ smoothStep target rate x ∧ smoothStep target rate x ≤ target)
    ∧ (target ≤ x → smoothStep target rate x ≤ x ∧ target ≤ smoothStep target rate x)
    ∧ ∀ n : ℕ, |target - (smoothStep target rate)^[n + 1] x|
        ≤ |target - (smoothStep target rate)^[n] x| := by
  have key : ∀ y : ℚ, target - smoothStep target rate y = (target - y) * (1 - rate) := by
    intro y; unfold smoothStep; ring
  have habs : ∀ y : ℚ, |target - smoothStep target rate y| = (1 - rate) * |target - y| := by
    intro y
    rw [key y, abs_mul, abs_of_nonneg (by linarith : (0:ℚ) ≤ 1 - rate), mul_comm]
  have hle : ∀ y : ℚ, |target - smoothStep target rate y| ≤ |target - y| := by
    intro y
    rw [habs y]
    nlinarith [abs_nonneg (target - y)]
  refine ⟨habs x, hle x, ?_, ?_, ?_⟩
  · intro hxt
    constructor
    · unfold smoothStep; nlinarith
    · have := key x; nlinarith
  · intro htx
    constructor
    · unfold smoothStep; nlinarith
    · have := key x; nlinarith
  · intro n
    rw [Function.iterate_succ_apply']
    exact hle _

/-- Witness for `smoothStep_monotone_convergence` at the de-escalation
rate `0.015` of `sphere.js`, target `1`, initial value `0`. -/
theorem smoothStep_monotone_convergence_witness :
    (0 : ℚ) < 0.015 ∧ (0.015 : ℚ) < 1
    ∧ |1 - smoothStep 1 0.015 0| ≤ |1 - (0 : ℚ)| := by
  refine ⟨by norm_num, by norm_num, ?_⟩
  exact (smoothStep_monotone_convergence 1 0.015 0 (by norm_num) (by norm_num)).2.1

/-- C5, counterexample to the claim as stated: with
`targetWorkingState = 0.005 > workingState = 0` the working target
exceeds its actual at tick start, yet `animate` picks the fast
de-escalation rate `0.015`, not the slow rate `0.003` — the escalation
test requires the target to exceed the actual by more than `0.01`. -/
theorem animate_rate_strict_excess_cex :
    (AnimState.mk 0 0 0 0 0 0.005 0 0).targetWorkingState
        > (AnimState.mk 0 0 0 0 0 0.005 0 0).workingState
    ∧ transitionSpeed (AnimState.mk 0 0 0 0 0 0.005 0 0) = 0.015
    ∧ transitionSpeed (AnimState.mk 0 0 0 0 0 0.005 0 0) ≠ 0.003 := by
  refine ⟨by norm_num, ?_, ?_⟩
  · rw [transitionSpeed, if_neg]
    rw [isWaking]
    push_neg
    constructor <;> norm_num
  · rw [transitionSpeed, if_neg]
    · norm_num
    · rw [isWaking]
      push_neg
      constructor <;> norm_num

/-- C5, amended: the tick smoothing of `animate` is asymmetric with the
escalation test `target > actual + 0.01`: when a working/waiting target
exceeds its actual **by more than 0.01** at tick start, the rate applied
to `spikeStrength`, `workingState` and `waitingState` is the slow
`0.003`; otherwise it is the faster `0.015`; the error channel always
uses its own rate `0.01`, distinct from both. -/
theorem animate_asymmetric_rates (a : AnimState) :
    (a.targetWorkingState > a.workingState + 0.01 ∨ a.targetWaitingState > a.waitingState + 0.01 →
      (animateSmoothing a).spikeStrength = smoothStep a.targetSpikeStrength 0.003 a.spikeStrength
      ∧ (animateSmoothing a).workingState = smoothStep a.targetWorkingState 0.003 a.workingState
      ∧ (animateSmoothing a).waitingState = smoothStep a.targetWaitingState 0.003 a.waitingState)
    ∧ (¬(a.targetWorkingState > a.workingState + 0.01 ∨ a.targetWaitingState > a.waitingState + 0.01) →
      (animateSmoothing a).spikeStrength = smoothStep a.targetSpikeStrength 0.015 a.spikeStrength
      ∧ (animateSmoothing a).workingState = smoothStep a.targetWorkingState 0.015 a.workingState
      ∧ (animateSmoothing a).waitingState = smoothStep a.targetWaitingState 0.015 a.waitingState)
    ∧ (animateSmoothing a).errorState = smoothStep a.targetErrorState 0.01 a.errorState
    ∧ (0.01 : ℚ) ≠ 0.003 ∧ (0.01 : ℚ) ≠ 0.015 := by
  refine ⟨?_, ?_, rfl, by norm_num, by norm_num⟩
  · intro h
    have : transitionSpeed a = 0.003 := by rw [transitionSpeed, if_pos]; exact h
    simp [animateSmoothing, this]
  · intro h
    have : transitionSpeed a = 0.015 := by rw [transitionSpeed, if_neg]; exact h
    simp [animateSmoothing, this]

/-- Witness for `animate_asymmetric_rates`: a state escalating on the
working channel (target `1`, actual `0`) gets the slow rate on its
working update. -/
theorem animate_asymmetric_rates_witness :
    ((AnimState.mk 0.2 0 0 0 0.2 1 0 0).targetWorkingState
        > (AnimState.mk 0.2 0 0 0 0.2 1 0 0).workingState + 0.01
      ∨ (AnimState.mk 0.2 0 0 0 0.2 1 0 0).targetWaitingState
        > (AnimState.mk 0.2 0 0 0 0.2 1 0 0).waitingState + 0.01)
    ∧ (animateSmoothing (AnimState.mk 0.2 0 0 0 0.2 1 0 0)).workingState
        = smoothStep 1 0.003 0 := by
  have h : (AnimState.mk 0.2 0 0 0 0.2 1 0 0).targetWorkingState
      > (AnimState.mk 0.2 0 0 0 0.2 1 0 0).workingState + 0.01
      ∨ (AnimState.mk 0.2 0 0 0 0.2 1 0 0).targetWaitingState
      > (AnimState.mk 0.2 0 0 0 0.2 1 0 0).waitingState + 0.01 := by
    left; norm_num
  exact ⟨h, ((animate_asymmetric_rates (AnimState.mk 0.2 0 0 0 0.2 1 0 0)).1 h).2.1⟩

/-- C7, counterexample to the claim as stated: `triggerNextColor` does
not advance `colorOffset` (it advances `targetColorOffset`), and
`colorOffset` does not stay constant across ticks — one tick after an
advance moves it by `0.02`. -/
theorem colorOffset_claim_cex :
    (triggerNextColor (ColorState.mk 0 0)).colorOffset = 0
    ∧ (triggerNextColor (ColorState.mk 0 0)).colorOffset ≠ (ColorState.mk 0 0).colorOffset + 1
    ∧ (tickColorOffset (triggerNextColor (ColorState.mk 0 0))).colorOffset = 0.02
    ∧ (tickColorOffset (triggerNextColor (ColorState.mk 0 0))).colorOffset
        ≠ (triggerNextColor (ColorState.mk 0 0)).colorOffset := by
  refine ⟨rfl, by norm_num [triggerNextColor], ?_, ?_⟩
  · norm_num [tickColorOffset, triggerNextColor, smoothStep]
  · norm_num [tickColorOffset, triggerNextColor, smoothStep]

/-- C7, amended: `k` calls of `triggerNextColor` advance
`targetColorOffset` by exactly `k` steps of `1.0` and leave
`colorOffset` untouched; a tick of `animate` leaves `targetColorOffset`
constant (`colorOffset` itself only approaches the target by exponential
smoothing); and with zero offset the palette index closes the full
cycle: `effectiveIndex` at `t = L / cycleSpeed` equals `effectiveIndex`
at `t = 0`. -/
theorem advanceColor_steps (c : ColorState) (k : ℕ) :
    (triggerNextColor^[k] c).targetColorOffset = c.targetColorOffset + k
    ∧ (triggerNextColor^[k] c).colorOffset = c.colorOffset
    ∧ (tickColorOffset c).targetColorOffset = c.targetColorOffset
    ∧ effectiveIndex (paletteLength / cycleSpeed) 0 = effectiveIndex 0 0 := by
  refine ⟨?_, ?_, rfl, ?_⟩
  · induction k with
    | zero => simp
    | succ n ih =>
      rw [Function.iterate_succ_apply', triggerNextColor, ih]
      push_cast
      ring
  · induction k with
    | zero => simp
    | succ n ih =>
      rw [Function.iterate_succ_apply', triggerNextColor]
      exact ih
  · norm_num [effectiveIndex, jsMod, truncQ, cycleSpeed, paletteLength]

/-- C8: the displacement field is deterministic — two evaluations of
`getDisplacement` at equal positions, equal times and equal parameter
values (spike strength, working/waiting states) return the same scalar;
likewise for the ridged variant, for any fixed `pow` implementation.
The embedding is a pure function of its arguments, so no hidden state,
randomness or call order can influence the result. -/
theorem getDisplacement_deterministic (p q : Vec3) (t t' ss ss' w w' wa wa' : ℚ)
    (hp : p = q) (ht : t = t') (hss : ss = ss') (hw : w = w') (hwa : wa = wa') :
    getDisplacement p t ss w wa = getDisplacement q t' ss' w' wa'
    ∧ ∀ (powf : ℚ → ℚ → ℚ) (sh sh' tr tr' : ℚ), sh = sh' → tr = tr' →
        Ferro.getDisplacement powf p t ss sh tr w
          = Ferro.getDisplacement powf q t' ss' sh' tr' w' := by
  subst hp ht hss hw hwa
  exact ⟨rfl, fun powf sh sh' tr tr' hsh htr => by rw [hsh, htr]⟩

/-- Witness for `getDisplacement_deterministic` at a concrete
position, time and parameter set. -/
theorem getDisplacement_deterministic_witness :
    (Vec3.mk 1 2 3 = Vec3.mk 1 2 3 ∧ (1 : ℚ) = 1)
    ∧ getDisplacement (Vec3.mk 1 2 3) 1 0.2 0 1 = getDisplacement (Vec3.mk 1 2 3) 1 0.2 0 1 :=
  ⟨⟨rfl, rfl⟩,
    (getDisplacement_deterministic (Vec3.mk 1 2 3) (Vec3.mk 1 2 3) 1 1 0.2 0.2 0 0 1 1
      rfl rfl rfl rfl rfl).1⟩

/-- One frequency step of the `fbm` loop: `x = x * 2.0 + shift` —
each octave doubles the frequency (up to the constant phase shift). -/
def fbmFreqStep (x : Vec3) : Vec3 := x * (2.0 : ℚ) + fbmShift

/-- C9: `fbm` is the sum of exactly 4 noise octaves whose amplitudes
halve (`0.5, 0.25, 0.125, 0.0625`) while the sample frequency doubles
each octave; and the ridged variant's displacement contains the term
`pow (1 - |snoise p1|) sharpness * spikeStrength`: the ridge transform
`(1 - |noise|) ^ sharpness` applied before scaling by spike strength,
added to the base and tremor noise. -/
theorem displacement_octaves_and_ridge :
    (∀ x : Vec3,
      fbm x = 0.5 * snoise x + 0.25 * snoise (fbmFreqStep x)
        + 0.125 * snoise (fbmFreqStep (fbmFreqStep x))
        + 0.0625 * snoise (fbmFreqStep (fbmFreqStep (fbmFreqStep x))))
    ∧ ∀ (powf : ℚ → ℚ → ℚ) (p : Vec3) (uTime uSpikeStrength uSharpness uTremor uWorking : ℚ),
      Ferro.getDisplacement powf p uTime uSpikeStrength uSharpness uTremor uWorking
        = snoise (p * (1.5 : ℚ) + (uTime * 0.4) * 0.5) * (0.1 * (1 - clampQ (uWorking * 1.5) 0.0 1.0))
          + powf (1 - |snoise (p * (2.5 : ℚ)
              + (⟨(uTime * 0.4) * 1.2, -((uTime * 0.4) * 0.8), (uTime * 0.4) * 0.5⟩ : Vec3))|)
              uSharpness
            * uSpikeStrength
          + snoise (p * (8.0 : ℚ) + uTime * 6.0) * uTremor := by
  constructor
  · intro x
    show fbmLoop 4 0.0 0.5 x = _
    rw [fbmLoop, fbmLoop, fbmLoop, fbmLoop, fbmLoop]
    unfold fbmFreqStep
    norm_num
  · intro powf p uTime uSpikeStrength uSharpness uTremor uWorking
    rfl

/-! ### Helper lemmas about the timer queue -/

theorem mem_removeId {tm : Timer} {i : ℕ} {l : List Timer} :
    tm ∈ removeId i l ↔ tm ∈ l ∧ tm.id ≠ i := by
  simp [removeId, List.mem_filter]

theorem removeId_subset {i : ℕ} {l : List Timer} {tm : Timer}
    (h : tm ∈ removeId i l) : tm ∈ l :=
  (mem_removeId.mp h).1

theorem pairwise_removeId {i : ℕ} {l : List Timer}
    (h : l.Pairwise (fun a b => a.id ≠ b.id)) :
    (removeId i l).Pairwise (fun a b => a.id ≠ b.id) :=
  h.filter _

theorem handleLinked_clear {k : TKind} {l : List Timer} {i : ℕ}
    (h : HandleLinked (some i) k l) : HandleLinked none k (removeId i l) := by
  intro tm hm hk
  obtain ⟨hml, hne⟩ := mem_removeId.mp hm
  exact hne ((h.2 tm hml).1 hk)

theorem handleLinked_remove_other {hh : Option ℕ} {k : TKind} {l : List Timer} {j : ℕ}
    (h : HandleLinked hh k l) (hj : ∀ tm ∈ l, tm.id = j → tm.kind ≠ k) :
    HandleLinked hh k (removeId j l) := by
  match hh with
  | none => exact fun tm hm => h tm (removeId_subset hm)
  | some i =>
    obtain ⟨⟨tw, hwl, hwi, hwk⟩, hall⟩ := h
    refine ⟨⟨tw, ?_, hwi, hwk⟩, fun tm hm => hall tm (removeId_subset hm)⟩
    rw [mem_removeId]
    exact ⟨hwl, fun hji => hj tw hwl hji hwk⟩

theorem handleLinked_append_other {hh : Option ℕ} {k : TKind} {l : List Timer}
    (n d : ℕ) (k' : TKind) (h : HandleLinked hh k l) (hk : k' ≠ k)
    (hn : ∀ i, hh = some i → i ≠ n) :
    HandleLinked hh k (l ++ [⟨n, d, k'⟩]) := by
  match hh with
  | none =>
    intro tm hm
    rcases List.mem_append.mp hm with hml | hmr
    · exact h tm hml
    · simp only [List.mem_singleton] at hmr
      subst hmr
      exact hk
  | some i =>
    obtain ⟨⟨tw, hwl, hwi, hwk⟩, hall⟩ := h
    refine ⟨⟨tw, List.mem_append.mpr (Or.inl hwl), hwi, hwk⟩, fun tm hm => ?_⟩
    rcases List.mem_append.mp hm with hml | hmr
    · exact hall tm hml
    · simp only [List.mem_singleton] at hmr
      subst hmr
      exact ⟨fun hkk => absurd hkk hk, fun hni => absurd hni.symm (hn i rfl)⟩

theorem handleLinked_append_fresh {k : TKind} {l : List Timer} {n d : ℕ}
    (h : ∀ tm ∈ l, tm.kind ≠ k) (hfresh : ∀ tm ∈ l, tm.id ≠ n) :
    HandleLinked (some n) k (l ++ [⟨n, d, k⟩]) := by
  refine ⟨⟨⟨n, d, k⟩, List.mem_append.mpr (Or.inr (List.mem_singleton.mpr rfl)), rfl, rfl⟩,
    fun tm hm => ?_⟩
  rcases List.mem_append.mp hm with hml | hmr
  · exact ⟨fun hkk => absurd hkk (h tm hml), fun hni => absurd hni (hfresh tm hml)⟩
  · simp only [List.mem_singleton] at hmr
    subst hmr
    exact ⟨fun _ => rfl, fun _ => rfl⟩

theorem appLinked_remove {hh : Option ℕ} {l : List Timer} {j : ℕ}
    (h : AppLinked hh l) : AppLinked hh (removeId j l) := by
  match hh with
  | none => exact fun tm hm => h tm (removeId_subset hm)
  | some i => exact fun tm hm => h tm (removeId_subset hm)

theorem appLinked_append_other {hh : Option ℕ} {l : List Timer} (n d : ℕ) (k' : TKind)
    (h : AppLinked hh l) (hk : k' ≠ TKind.appWorkOff)
    (hn : ∀ i, hh = some i → i ≠ n) :
    AppLinked hh (l ++ [⟨n, d, k'⟩]) := by
  match hh with
  | none =>
    intro tm hm
    rcases List.mem_append.mp hm with hml | hmr
    · exact h tm hml
    · simp only [List.mem_singleton] at hmr
      subst hmr
      exact hk
  | some i =>
    intro tm hm
    rcases List.mem_append.mp hm with hml | hmr
    · exact h tm hml
    · simp only [List.mem_singleton] at hmr
      subst hmr
      exact ⟨fun hkk => absurd hkk hk, fun hni => absurd hni.symm (hn i rfl)⟩

theorem appLinked_fresh {l : List Timer} {n d : ℕ}
    (h : ∀ tm ∈ l, tm.kind ≠ TKind.appWorkOff) (hfresh : ∀ tm ∈ l, tm.id ≠ n) :
    AppLinked (some n) (l ++ [⟨n, d, TKind.appWorkOff⟩]) := by
  intro tm hm
  rcases List.mem_append.mp hm with hml | hmr
  · exact ⟨fun hkk => absurd hkk (h tm hml), fun hni => absurd hni (hfresh tm hml)⟩
  · simp only [List.mem_singleton] at hmr
    subst hmr
    exact ⟨fun _ => rfl, fun _ => rfl⟩

theorem appLinked_cleared {l : List Timer} {i : ℕ}
    (h : AppLinked (some i) l) : ∀ tm ∈ removeId i l, tm.kind ≠ TKind.appWorkOff := by
  intro tm hm hk
  obtain ⟨hml, hne⟩ := mem_removeId.mp hm
  exact hne ((h tm hml).1 hk)

theorem pairwise_append_fresh {l : List Timer} {n d : ℕ} {k : TKind}
    (hp : l.Pairwise (fun a b => a.id ≠ b.id)) (hfresh : ∀ tm ∈ l, tm.id ≠ n) :
    (l ++ [(⟨n, d, k⟩ : Timer)]).Pairwise (fun a b => a.id ≠ b.id) := by
  rw [List.pairwise_append]
  refine ⟨hp, by simp, fun a ha b hb => ?_⟩
  simp only [List.mem_singleton] at hb
  subst hb
  exact hfresh a ha

theorem timer_eq_of_id {l : List Timer} (hp : l.Pairwise (fun a b => a.id ≠ b.id))
    {a b : Timer} (ha : a ∈ l) (hb : b ∈ l) (hid : a.id = b.id) : a = b := by
  induction l with
  | nil => cases ha
  | cons c l ih =>
    obtain ⟨hc, hp'⟩ := List.pairwise_cons.mp hp
    rcases List.mem_cons.mp ha with rfl | ha' <;> rcases List.mem_cons.mp hb with rfl | hb'
    · rfl
    · exact absurd hid (hc b hb')
    · exact absurd hid.symm (hc a ha')
    · exact ih hp' ha' hb'

theorem sinv_initS : SInv initS := by
  refine ⟨?_, ?_, ?_, ?_, ?_, ?_, ?_, ?_⟩ <;> simp [initS, HandleLinked, AppLinked]

theorem sinv_setWorkingState (b : Bool) (now : ℕ) (s : S) (h : SInv s) :
    SInv (setWorkingState b now s) := by
  obtain ⟨hids, hpw, hbw, hbwait, hbapp, hlw, hlwait, hlapp⟩ := h
  cases b with
  | true =>
    rw [setWorkingState]
    simp only [if_true]
    by_cases hc : s.targetWorkingState < 0.5 ∧ s.workingTimeout = none
    · rw [if_pos hc]
      obtain ⟨-, hnone⟩ := hc
      rw [hnone] at hlw
      have hfresh : ∀ tm ∈ s.timers, tm.id ≠ s.nextId :=
        fun tm hm => Nat.ne_of_lt (hids tm hm)
      refine ⟨?_, ?_, ?_, ?_, ?_, ?_, ?_, ?_⟩
      · intro tm hm
        rcases List.mem_append.mp hm with hml | hmr
        · exact Nat.lt_succ_of_lt (hids tm hml)
        · simp only [List.mem_singleton] at hmr
          subst hmr
          exact Nat.lt_succ_self _
      · exact pairwise_append_fresh hpw hfresh
      · intro i hi
        simp only [Option.some.injEq] at hi
        subst hi
        exact Nat.lt_succ_self _
      · exact fun i hi => Nat.lt_succ_of_lt (hbwait i hi)
      · exact fun i hi => Nat.lt_succ_of_lt (hbapp i hi)
      · exact handleLinked_append_fresh hlw hfresh
      · exact handleLinked_append_other _ _ _ hlwait (by decide)
          (fun i hi => Nat.ne_of_lt (hbwait i hi))
      · exact appLinked_append_other _ _ _ hlapp (by decide)
          (fun i hi => Nat.ne_of_lt (hbapp i hi))
    · rw [if_neg hc]
      exact ⟨hids, hpw, hbw, hbwait, hbapp, hlw, hlwait, hlapp⟩
  | false =>
    rw [setWorkingState]
    simp only [Bool.false_eq_true, if_false]
    cases hw : s.workingTimeout with
    | none =>
      rw [hw] at hlw
      exact ⟨hids, hpw, by simp, hbwait, hbapp, hlw, hlwait, hlapp⟩
    | some i =>
      rw [hw] at hlw
      have hj : ∀ tm ∈ s.timers, tm.id = i → tm.kind ≠ TKind.waitAct := by
        intro tm hm hid
        rw [(hlw.2 tm hm).2 hid]
        decide
      refine ⟨fun tm hm => hids tm (removeId_subset hm), pairwise_removeId hpw,
        by simp, hbwait, hbapp, handleLinked_clear hlw,
        handleLinked_remove_other hlwait hj, appLinked_remove hlapp⟩

theorem sinv_setWaitingState (b : Bool) (now : ℕ) (s : S) (h : SInv s) :
    SInv (setWaitingState b now s) := by
  obtain ⟨hids, hpw, hbw, hbwait, hbapp, hlw, hlwait, hlapp⟩ := h
  cases b with
  | true =>
    rw [setWaitingState]
    simp only [if_true]
    by_cases hc : s.targetWaitingState < 0.5 ∧ s.waitingTimeout = none
    · rw [if_pos hc]
      obtain ⟨-, hnone⟩ := hc
      rw [hnone] at hlwait
      have hfresh : ∀ tm ∈ s.timers, tm.id ≠ s.nextId :=
        fun tm hm => Nat.ne_of_lt (hids tm hm)
      refine ⟨?_, ?_, ?_, ?_, ?_, ?_, ?_, ?_⟩
      · intro tm hm
        rcases List.mem_append.mp hm with hml | hmr
        · exact Nat.lt_succ_of_lt (hids tm hml)
        · simp only [List.mem_singleton] at hmr
          subst hmr
          exact Nat.lt_succ_self _
      · exact pairwise_append_fresh hpw hfresh
      · exact fun i hi => Nat.lt_succ_of_lt (hbw i hi)
      · intro i hi
        simp only [Option.some.injEq] at hi
        subst hi
        exact Nat.lt_succ_self _
      · exact fun i hi => Nat.lt_succ_of_lt (hbapp i hi)
      · exact handleLinked_append_other _ _ _ hlw (by decide)
          (fun i hi => Nat.ne_of_lt (hbw i hi))
      · exact handleLinked_append_fresh hlwait hfresh
      · exact appLinked_append_other _ _ _ hlapp (by decide)
          (fun i hi => Nat.ne_of_lt (hbapp i hi))
    · rw [if_neg hc]
      exact ⟨hids, hpw, hbw, hbwait, hbapp, hlw, hlwait, hlapp⟩
  | false =>
    rw [setWaitingState]
    simp only [Bool.false_eq_true, if_false]
    cases hw : s.waitingTimeout with
    | none =>
      rw [hw] at hlwait
      exact ⟨hids, hpw, hbw, by simp, hbapp, hlw, hlwait, hlapp⟩
    | some i =>
      rw [hw] at hlwait
      have hj : ∀ tm ∈ s.timers, tm.id = i → tm.kind ≠ TKind.workAct := by
        intro tm hm hid
        rw [(hlwait.2 tm hm).2 hid]
        decide
      refine ⟨fun tm hm => hids tm (removeId_subset hm), pairwise_removeId hpw,
        hbw, by simp, hbapp, handleLinked_remove_other hlw hj,
        handleLinked_clear hlwait, appLinked_remove hlapp⟩

theorem sinv_triggerSpike (now : ℕ) (s : S) (h : SInv s) : SInv (triggerSpike now s) := by
  obtain ⟨hids, hpw, hbw, hbwait, hbapp, hlw, hlwait, hlapp⟩ := h
  have hfresh : ∀ tm ∈ s.timers, tm.id ≠ s.nextId :=
    fun tm hm => Nat.ne_of_lt (hids tm hm)
  refine ⟨?_, pairwise_append_fresh hpw hfresh,
    fun i hi => Nat.lt_succ_of_lt (hbw i hi),
    fun i hi => Nat.lt_succ_of_lt (hbwait i hi),
    fun i hi => Nat.lt_succ_of_lt (hbapp i hi),
    handleLinked_append_other _ _ _ hlw (by decide) (fun i hi => Nat.ne_of_lt (hbw i hi)),
    handleLinked_append_other _ _ _ hlwait (by decide) (fun i hi => Nat.ne_of_lt (hbwait i hi)),
    appLinked_append_other _ _ _ hlapp (by decide) (fun i hi => Nat.ne_of_lt (hbapp i hi))⟩
  intro tm hm
  rcases List.mem_append.mp hm with hml | hmr
  · exact Nat.lt_succ_of_lt (hids tm hml)
  · simp only [List.mem_singleton] at hmr
    subst hmr
    exact Nat.lt_succ_self _

theorem sinv_clearAppTimer (s : S) (h : SInv s) :
    SInv { s with timers := match s.workTimer with
            | some i => removeId i s.timers
            | none => s.timers } := by
  obtain ⟨hids, hpw, hbw, hbwait, hbapp, hlw, hlwait, hlapp⟩ := h
  cases hw : s.workTimer with
  | none =>
    rw [hw] at hbapp hlapp
    exact ⟨hids, hpw, hbw, hbwait, hbapp, hlw, hlwait, hlapp⟩
  | some i =>
    rw [hw] at hbapp hlapp
    have hj : ∀ k' : TKind, k' ≠ TKind.appWorkOff →
        ∀ tm ∈ s.timers, tm.id = i → tm.kind ≠ k' := by
      intro k' hk' tm hm hid
      rw [(hlapp tm hm).2 hid]
      exact fun hkk => hk' hkk.symm
    exact ⟨fun tm hm => hids tm (removeId_subset hm), pairwise_removeId hpw,
      hbw, hbwait, hbapp,
      handleLinked_remove_other hlw (hj _ (by decide)),
      handleLinked_remove_other hlwait (hj _ (by decide)),
      appLinked_remove hlapp⟩

theorem sinv_updateStateFromIcon (icon : String) (now : ℕ) (s : S) (h : SInv s) :
    SInv (updateStateFromIcon icon now s) := by
  rw [updateStateFromIcon]
  by_cases hp : s.isProcessingRequest = true
  · rw [if_pos hp]
    exact h
  · rw [if_neg hp]
    by_cases hwi : icon ∈ WORKING_ICONS
    · rw [if_pos hwi]
      have h1 : SInv (setWorkingState true now s) := sinv_setWorkingState true now s h
      set s1 := setWorkingState true now s with hs1
      have h2 : SInv { s1 with timers := match s1.workTimer with
          | some i => removeId i s1.timers
          | none => s1.timers } := sinv_clearAppTimer s1 h1
      set s2 := { s1 with timers := match s1.workTimer with
          | some i => removeId i s1.timers
          | none => s1.timers } with hs2
      obtain ⟨hids, hpw, hbw, hbwait, hbapp, hlw, hlwait, hlapp⟩ := h2
      have hnoapp : ∀ tm ∈ s2.timers, tm.kind ≠ TKind.appWorkOff := by
        obtain ⟨h1ids, h1pw, h1bw, h1bwait, h1bapp, h1lw, h1lwait, h1lapp⟩ := h1
        cases hw : s1.workTimer with
        | none =>
          rw [hw] at h1lapp
          intro tm hm
          rw [hs2] at hm
          simp only [hw] at hm
          exact h1lapp tm hm
        | some i =>
          rw [hw] at h1lapp
          intro tm hm
          rw [hs2] at hm
          simp only [hw] at hm
          exact appLinked_cleared h1lapp tm hm
      have hfresh : ∀ tm ∈ s2.timers, tm.id ≠ s2.nextId :=
        fun tm hm => Nat.ne_of_lt (hids tm hm)
      refine ⟨?_, pairwise_append_fresh hpw hfresh,
        fun i hi => Nat.lt_succ_of_lt (hbw i hi),
        fun i hi => Nat.lt_succ_of_lt (hbwait i hi),
        ?_,
        handleLinked_append_other _ _ _ hlw (by decide) (fun i hi => Nat.ne_of_lt (hbw i hi)),
        handleLinked_append_other _ _ _ hlwait (by decide) (fun i hi => Nat.ne_of_lt (hbwait i hi)),
        appLinked_fresh hnoapp hfresh⟩
      · intro tm hm
        rcases List.mem_append.mp hm with hml | hmr
        · exact Nat.lt_succ_of_lt (hids tm hml)
        · simp only [List.mem_singleton] at hmr
          subst hmr
          exact Nat.lt_succ_self _
      · intro i hi
        simp only [Option.some.injEq] at hi
        subst hi
        exact Nat.lt_succ_self _
    · rw [if_neg hwi]
      by_cases hii : icon ∈ IDLE_ICONS
      · rw [if_pos hii]
        exact sinv_setWorkingState false now s h
      · rw [if_neg hii]
        exact h

theorem remove_member_kind_ne {l : List Timer} (hp : l.Pairwise (fun a b => a.id ≠ b.id))
    {tm : Timer} (hm : tm ∈ l) (k' : TKind) (hk : tm.kind ≠ k') :
    ∀ tm' ∈ l, tm'.id = tm.id → tm'.kind ≠ k' := by
  intro tm' hm' hid hkk
  rw [timer_eq_of_id hp hm' hm hid] at hkk
  exact hk hkk

theorem sinv_fireTimer (tm : Timer) (s : S) (h : SInv s) (hm : tm ∈ s.timers) :
    SInv (fireTimer tm s) := by
  obtain ⟨hids, hpw, hbw, hbwait, hbapp, hlw, hlwait, hlapp⟩ := h
  obtain ⟨tid, tdl, tkd⟩ := tm
  have hne : ∀ k' : TKind, (⟨tid, tdl, tkd⟩ : Timer).kind ≠ k' →
      ∀ tm' ∈ s.timers, tm'.id = tid → tm'.kind ≠ k' :=
    fun k' hk => remove_member_kind_ne hpw hm k' hk
  cases tkd with
  | workAct =>
    have hwsome : HandleLinked none TKind.workAct (removeId tid s.timers) := by
      cases hw : s.workingTimeout with
      | none =>
        rw [hw] at hlw
        exact fun tm' hm' => hlw tm' (removeId_subset hm')
      | some i =>
        rw [hw] at hlw
        have hid : tid = i := (hlw.2 ⟨tid, tdl, .workAct⟩ hm).1 rfl
        rw [hid]
        exact handleLinked_clear hlw
    exact ⟨fun tm' hm' => hids tm' (removeId_subset hm'), pairwise_removeId hpw,
      nofun, hbwait, hbapp, hwsome,
      handleLinked_remove_other hlwait (hne _ (by intro hkk; exact TKind.noConfusion hkk)),
      appLinked_remove hlapp⟩
  | waitAct =>
    have hwsome : HandleLinked none TKind.waitAct (removeId tid s.timers) := by
      cases hw : s.waitingTimeout with
      | none =>
        rw [hw] at hlwait
        exact fun tm' hm' => hlwait tm' (removeId_subset hm')
      | some i =>
        rw [hw] at hlwait
        have hid : tid = i := (hlwait.2 ⟨tid, tdl, .waitAct⟩ hm).1 rfl
        rw [hid]
        exact handleLinked_clear hlwait
    exact ⟨fun tm' hm' => hids tm' (removeId_subset hm'), pairwise_removeId hpw,
      hbw, nofun, hbapp,
      handleLinked_remove_other hlw (hne _ (by intro hkk; exact TKind.noConfusion hkk)),
      hwsome, appLinked_remove hlapp⟩
  | errReset =>
    exact ⟨fun tm' hm' => hids tm' (removeId_subset hm'), pairwise_removeId hpw,
      hbw, hbwait, hbapp,
      handleLinked_remove_other hlw (hne _ (by intro hkk; exact TKind.noConfusion hkk)),
      handleLinked_remove_other hlwait (hne _ (by intro hkk; exact TKind.noConfusion hkk)),
      appLinked_remove hlapp⟩
  | appWorkOff =>
    have hs' : SInv { s with timers := removeId tid s.timers } :=
      ⟨fun tm' hm' => hids tm' (removeId_subset hm'), pairwise_removeId hpw,
        hbw, hbwait, hbapp,
        handleLinked_remove_other hlw (hne _ (by intro hkk; exact TKind.noConfusion hkk)),
        handleLinked_remove_other hlwait (hne _ (by intro hkk; exact TKind.noConfusion hkk)),
        appLinked_remove hlapp⟩
    show SInv (if s.isProcessingRequest = true then _ else _)
    by_cases hp : s.isProcessingRequest = true
    · rw [if_pos hp]
      exact hs'
    · rw [if_neg hp]
      exact sinv_setWorkingState false tdl _ hs'

theorem sinv_advanceAux (t : ℕ) : ∀ (fuel : ℕ) (s : S), SInv s →
    (∀ s' ∈ (advanceAux fuel t s).1, SInv s') ∧ SInv (advanceAux fuel t s).2 := by
  intro fuel
  induction fuel with
  | zero => intro s h; exact ⟨by simp [advanceAux], h⟩
  | succ n ih =>
    intro s h
    rw [advanceAux]
    cases hf : s.timers.find? (fun tm => tm.deadline ≤ t) with
    | none => exact ⟨by simp, h⟩
    | some tm =>
      have hm : tm ∈ s.timers := List.mem_of_find?_eq_some hf
      have h1 : SInv (fireTimer tm s) := sinv_fireTimer tm s h hm
      obtain ⟨htr, hfin⟩ := ih (fireTimer tm s) h1
      refine ⟨fun s' hs' => ?_, hfin⟩
      simp only [List.mem_cons] at hs'
      rcases hs' with rfl | hs'
      · exact h1
      · exact htr s' hs'

theorem sinv_advanceTo (t : ℕ) (s : S) (h : SInv s) : SInv (advanceTo t s) :=
  (sinv_advanceAux t s.timers.length s h).2

theorem sinv_applyCmd (c : Cmd) (t : ℕ) (s : S) (h : SInv s) : SInv (applyCmd c t s) := by
  cases c with
  | setWorking b => exact sinv_setWorkingState b t s h
  | setWaiting b => exact sinv_setWaitingState b t s h
  | spike => exact sinv_triggerSpike t s h
  | icon name => exact sinv_updateStateFromIcon name t s h

theorem sinv_runAux : ∀ (cmds : List TCmd) (s : S), SInv s →
    (∀ s' ∈ (runAux cmds s).1, SInv s') ∧ SInv (runAux cmds s).2 := by
  intro cmds
  induction cmds with
  | nil => intro s h; exact ⟨by simp [runAux], h⟩
  | cons c rest ih =>
    intro s h
    rw [runAux]
    obtain ⟨hatr, hafin⟩ := sinv_advanceAux c.t s.timers.length s h
    have h1 : SInv (applyCmd c.cmd c.t (advanceAux s.timers.length c.t s).2) :=
      sinv_applyCmd c.cmd c.t _ hafin
    obtain ⟨hrtr, hrfin⟩ := ih _ h1
    refine ⟨fun s' hs' => ?_, hrfin⟩
    simp only [List.mem_append, List.mem_cons] at hs'
    rcases hs' with hs' | rfl | hs'
    · exact hatr s' hs'
    · exact h1
    · exact hrtr s' hs'

theorem countKind_le_one_of_key {k : TKind} {i : ℕ} :
    ∀ l : List Timer, l.Pairwise (fun a b => a.id ≠ b.id) →
      (∀ tm ∈ l, tm.kind = k → tm.id = i) → countKind k l ≤ 1 := by
  intro l
  induction l with
  | nil => intro _ _; simp [countKind]
  | cons tm l ih =>
    intro hp hall
    obtain ⟨hhead, htail⟩ := List.pairwise_cons.mp hp
    rw [countKind, List.countP_cons]
    by_cases hk : tm.kind = k
    · have hzero : l.countP (fun tm' => tm'.kind == k) = 0 := by
        rw [List.countP_eq_zero]
        intro b hb
        simp only [beq_iff_eq]
        intro hbk
        exact hhead b hb ((hall tm (List.mem_cons_self tm l) hk).trans
          (hall b (List.mem_cons_of_mem tm hb) hbk).symm)
      simp [countKind, hzero, hk]
    · have : (tm.kind == k) = false := by simp [hk]
      simp only [this, if_false, Nat.add_zero]
      exact ih htail (fun tm' hm' => hall tm' (List.mem_cons_of_mem tm hm'))

theorem countKind_le_one_of_linked {hh : Option ℕ} {k : TKind} {l : List Timer}
    (hp : l.Pairwise (fun a b => a.id ≠ b.id)) (h : HandleLinked hh k l) :
    countKind k l ≤ 1 := by
  match hh with
  | none =>
    have : countKind k l = 0 := by
      rw [countKind, List.countP_eq_zero]
      intro tm hm
      simp only [beq_iff_eq]
      exact h tm hm
    omega
  | some i => exact countKind_le_one_of_key l hp (fun tm hm hk => (h.2 tm hm).1 hk)

/-- C3, counterexample to the claim as stated: `triggerSpike` stores no
handle and cancels nothing before calling `setTimeout`, so after two
pulses (at 0 ms and 500 ms) the error channel has **two** pending
auto-reset timers outstanding — more than one. -/
theorem single_flight_error_cex :
    ¬ countKind .errReset (run (spikePair 500) initS).timers ≤ 1 := by decide

/-- C3, amended: the working and waiting channels do satisfy the
single-flight invariant — in every state reachable by any command
sequence from the initial state (including every intermediate state
while timers fire), each of the two channels has at most one pending
activation timer, because `setWorkingState`/`setWaitingState` only
schedule when the stored handle is empty and cancel through the stored
handle.  The error channel does not: `triggerSpike` stores no handle
(see the counterexample). -/
theorem single_flight_working_waiting (cmds : List TCmd) (s' : S)
    (hs' : s' ∈ runTrace cmds initS) :
    countKind .workAct s'.timers ≤ 1 ∧ countKind .waitAct s'.timers ≤ 1 := by
  have hinv : SInv s' := by
    rcases List.mem_cons.mp hs' with rfl | hmem
    · exact sinv_initS
    · exact (sinv_runAux cmds initS sinv_initS).1 s' hmem
  obtain ⟨-, hpw, -, -, -, hlw, hlwait, -⟩ := hinv
  exact ⟨countKind_le_one_of_linked hpw hlw, countKind_le_one_of_linked hpw hlwait⟩

/-- Witness for `single_flight_working_waiting` at the head of the
trace of an activation request. -/
theorem single_flight_working_waiting_witness :
    (initS ∈ runTrace [⟨0, .setWorking true⟩] initS)
    ∧ countKind .workAct initS.timers ≤ 1 :=
  ⟨List.mem_cons_self _ _,
    (single_flight_working_waiting [⟨0, .setWorking true⟩] initS
      (List.mem_cons_self _ _)).1⟩

/-- C4: in any state satisfying the handle invariant,
`setWorkingState(true)` / `setWaitingState(true)` is a no-op when the
channel's target is already `1` or a pending activation timer exists;
otherwise (target `0`, no pending timer) it schedules a single-shot
timer with the fixed 2000 ms delay, and that timer's firing sets the
channel target to `1` and clears the stored handle. -/
theorem requestActivate_debounce (s : S) (now : ℕ) (h : SInv s) :
    (s.targetWorkingState = 1 → setWorkingState true now s = s)
    ∧ ((∃ tm ∈ s.timers, tm.kind = TKind.workAct) → setWorkingState true now s = s)
    ∧ (s.targetWorkingState = 0 → (∀ tm ∈ s.timers, tm.kind ≠ TKind.workAct) →
        (setWorkingState true now s).timers
            = s.timers ++ [⟨s.nextId, now + 2000, TKind.workAct⟩]
        ∧ (setWorkingState true now s).workingTimeout = some s.nextId
        ∧ (fireTimer ⟨s.nextId, now + 2000, TKind.workAct⟩
            (setWorkingState true now s)).targetWorkingState = 1
        ∧ (fireTimer ⟨s.nextId, now + 2000, TKind.workAct⟩
            (setWorkingState true now s)).workingTimeout = none)
    ∧ (s.targetWaitingState = 1 → setWaitingState true now s = s)
    ∧ ((∃ tm ∈ s.timers, tm.kind = TKind.waitAct) → setWaitingState true now s = s)
    ∧ (s.targetWaitingState = 0 → (∀ tm ∈ s.timers, tm.kind ≠ TKind.waitAct) →
        (setWaitingState true now s).timers
            = s.timers ++ [⟨s.nextId, now + 2000, TKind.waitAct⟩]
        ∧ (setWaitingState true now s).waitingTimeout = some s.nextId
        ∧ (fireTimer ⟨s.nextId, now + 2000, TKind.waitAct⟩
            (setWaitingState true now s)).targetWaitingState = 1
        ∧ (fireTimer ⟨s.nextId, now + 2000, TKind.waitAct⟩
            (setWaitingState true now s)).waitingTimeout = none) := by
  obtain ⟨hids, hpw, hbw, hbwait, hbapp, hlw, hlwait, hlapp⟩ := h
  refine ⟨?_, ?_, ?_, ?_, ?_, ?_⟩
  · intro h1
    rw [setWorkingState]
    simp only [if_true]
    rw [if_neg]
    rintro ⟨hlt, -⟩
    rw [h1] at hlt
    norm_num at hlt
  · rintro ⟨tm, hm, hk⟩
    rw [setWorkingState]
    simp only [if_true]
    rw [if_neg]
    rintro ⟨-, hnone⟩
    rw [hnone] at hlw
    exact hlw tm hm hk
  · intro h0 hno
    have hnone : s.workingTimeout = none := by
      cases hw : s.workingTimeout with
      | none => rfl
      | some i =>
        rw [hw] at hlw
        obtain ⟨tw, hwl, -, hwk⟩ := hlw.1
        exact absurd hwk (hno tw hwl)
    rw [setWorkingState]
    simp only [if_true]
    rw [if_pos ⟨by rw [h0]; norm_num, hnone⟩]
    exact ⟨rfl, rfl, rfl, rfl⟩
  · intro h1
    rw [setWaitingState]
    simp only [if_true]
    rw [if_neg]
    rintro ⟨hlt, -⟩
    rw [h1] at hlt
    norm_num at hlt
  · rintro ⟨tm, hm, hk⟩
    rw [setWaitingState]
    simp only [if_true]
    rw [if_neg]
    rintro ⟨-, hnone⟩
    rw [hnone] at hlwait
    exact hlwait tm hm hk
  · intro h0 hno
    have hnone : s.waitingTimeout = none := by
      cases hw : s.waitingTimeout with
      | none => rfl
      | some i =>
        rw [hw] at hlwait
        obtain ⟨tw, hwl, -, hwk⟩ := hlwait.1
        exact absurd hwk (hno tw hwl)
    rw [setWaitingState]
    simp only [if_true]
    rw [if_pos ⟨by rw [h0]; norm_num, hnone⟩]
    exact ⟨rfl, rfl, rfl, rfl⟩

/-- Witness for `requestActivate_debounce` at the initial state:
activation schedules timer id `0` with deadline 2000 and its firing
activates the channel. -/
theorem requestActivate_debounce_witness :
    (initS.targetWorkingState = 0 ∧ (∀ tm ∈ initS.timers, tm.kind ≠ TKind.workAct))
    ∧ (setWorkingState true 0 initS).workingTimeout = some initS.nextId
    ∧ (fireTimer ⟨initS.nextId, 0 + 2000, TKind.workAct⟩
        (setWorkingState true 0 initS)).targetWorkingState = 1 := by
  have hpre : initS.targetWorkingState = 0 := rfl
  have hno : ∀ tm ∈ initS.timers, tm.kind ≠ TKind.workAct := by
    intro tm hm
    simp [initS] at hm
  have hr := (requestActivate_debounce initS 0 sinv_initS).2.2.1 hpre hno
  exact ⟨⟨hpre, hno⟩, hr.2.1, hr.2.2.1⟩

theorem advanceAux_no_due (fuel t : ℕ) (s : S) (h : ∀ tm ∈ s.timers, ¬ tm.deadline ≤ t) :
    advanceAux fuel t s = ([], s) := by
  cases fuel with
  | zero => rfl
  | succ n =>
    rw [advanceAux]
    have hf : s.timers.find? (fun tm => tm.deadline ≤ t) = none := by
      rw [List.find?_eq_none]
      intro x hx
      simpa using h x hx
    rw [hf]

/-- C1: on a non-error channel, if activation is requested and then
deactivation is requested before the 2000 ms debounce delay elapses,
the channel's target never becomes 1 at any point of the run, the
pending activation timer is cancelled, the target ends at 0, and no
state change from the activation can ever occur afterwards (no timer
remains, so advancing the clock any further changes nothing).  Both for
the working channel (`setWorkingState`) and the waiting channel
(`setWaitingState`). -/
theorem no_flicker (t0 t1 : ℕ) (h01 : t0 ≤ t1) (hlt : t1 < t0 + 2000) :
    ((∀ s' ∈ runTrace (actDeactWorking t0 t1) initS, s'.targetWorkingState = 0)
      ∧ (run (actDeactWorking t0 t1) initS).targetWorkingState = 0
      ∧ (run (actDeactWorking t0 t1) initS).workingTimeout = none
      ∧ (run (actDeactWorking t0 t1) initS).timers = []
      ∧ ∀ t, advanceTo t (run (actDeactWorking t0 t1) initS)
          = run (actDeactWorking t0 t1) initS)
    ∧ ((∀ s' ∈ runTrace (actDeactWaiting t0 t1) initS, s'.targetWaitingState = 0)
      ∧ (run (actDeactWaiting t0 t1) initS).targetWaitingState = 0
      ∧ (run (actDeactWaiting t0 t1) initS).waitingTimeout = none
      ∧ (run (actDeactWaiting t0 t1) initS).timers = []
      ∧ ∀ t, advanceTo t (run (actDeactWaiting t0 t1) initS)
          = run (actDeactWaiting t0 t1) initS) := by
  have keyW : runAux (actDeactWorking t0 t1) initS
      = ([{ targetWorkingState := 0, targetWaitingState := 0, targetErrorState := 0,
            workingTimeout := some 0, waitingTimeout := none, workTimer := none,
            isProcessingRequest := false, timers := [⟨0, t0 + 2000, .workAct⟩], nextId := 1 },
          { targetWorkingState := 0, targetWaitingState := 0, targetErrorState := 0,
            workingTimeout := none, waitingTimeout := none, workTimer := none,
            isProcessingRequest := false, timers := [], nextId := 1 }],
         { targetWorkingState := 0, targetWaitingState := 0, targetErrorState := 0,
           workingTimeout := none, waitingTimeout := none, workTimer := none,
           isProcessingRequest := false, timers := [], nextId := 1 }) := by
    have hs1 : applyCmd (Cmd.setWorking true) t0 initS
        = { targetWorkingState := 0, targetWaitingState := 0, targetErrorState := 0,
            workingTimeout := some 0, waitingTimeout := none, workTimer := none,
            isProcessingRequest := false, timers := [⟨0, t0 + 2000, .workAct⟩], nextId := 1 } := by
      show setWorkingState true t0 initS = _
      rw [setWorkingState]
      simp only [if_true]
      rw [if_pos]
      · rfl
      · exact ⟨by norm_num [initS], rfl⟩
    have ha1 : advanceAux 1 t1
        ({ targetWorkingState := 0, targetWaitingState := 0, targetErrorState := 0,
           workingTimeout := some 0, waitingTimeout := none, workTimer := none,
           isProcessingRequest := false, timers := [⟨0, t0 + 2000, .workAct⟩], nextId := 1 } : S)
        = ([], _) := advanceAux_no_due _ _ _ (by
          intro tm hm
          simp only [List.mem_singleton] at hm
          subst hm
          show ¬ (t0 + 2000 ≤ t1)
          omega)
    rw [actDeactWorking, runAux]
    rw [advanceAux_no_due _ _ _ (by intro tm hm; simp [initS] at hm)]
    simp only [hs1, runAux, List.length_singleton, ha1]
    rfl
  have keyWait : runAux (actDeactWaiting t0 t1) initS
      = ([{ targetWorkingState := 0, targetWaitingState := 0, targetErrorState := 0,
            workingTimeout := none, waitingTimeout := some 0, workTimer := none,
            isProcessingRequest := false, timers := [⟨0, t0 + 2000, .waitAct⟩], nextId := 1 },
          { targetWorkingState := 0, targetWaitingState := 0, targetErrorState := 0,
            workingTimeout := none, waitingTimeout := none, workTimer := none,
            isProcessingRequest := false, timers := [], nextId := 1 }],
         { targetWorkingState := 0, targetWaitingState := 0, targetErrorState := 0,
           workingTimeout := none, waitingTimeout := none, workTimer := none,
           isProcessingRequest := false, timers := [], nextId := 1 }) := by
    have hs1 : applyCmd (Cmd.setWaiting true) t0 initS
        = { targetWorkingState := 0, targetWaitingState := 0, targetErrorState := 0,
            workingTimeout := none, waitingTimeout := some 0, workTimer := none,
            isProcessingRequest := false, timers := [⟨0, t0 + 2000, .waitAct⟩], nextId := 1 } := by
      show setWaitingState true t0 initS = _
      rw [setWaitingState]
      simp only [if_true]
      rw [if_pos]
      · rfl
      · exact ⟨by norm_num [initS], rfl⟩
    have ha1 : advanceAux 1 t1
        ({ targetWorkingState := 0, targetWaitingState := 0, targetErrorState := 0,
           workingTimeout := none, waitingTimeout := some 0, workTimer := none,
           isProcessingRequest := false, timers := [⟨0, t0 + 2000, .waitAct⟩], nextId := 1 } : S)
        = ([], _) := advanceAux_no_due _ _ _ (by
          intro tm hm
          simp only [List.mem_singleton] at hm
          subst hm
          show ¬ (t0 + 2000 ≤ t1)
          omega)
    rw [actDeactWaiting, runAux]
    rw [advanceAux_no_due _ _ _ (by intro tm hm; simp [initS] at hm)]
    simp only [hs1, runAux, List.length_singleton, ha1]
    rfl
  constructor
  · refine ⟨?_, ?_, ?_, ?_, ?_⟩
    · intro s' hs'
      rw [runTrace, keyW] at hs'
      rcases List.mem_cons.mp hs' with rfl | hs'
      · rfl
      rcases List.mem_cons.mp hs' with rfl | hs'
      · rfl
      rcases List.mem_cons.mp hs' with rfl | hs'
      · rfl
      · cases hs'
    · show (runAux (actDeactWorking t0 t1) initS).2.targetWorkingState = 0
      rw [keyW]
    · show (runAux (actDeactWorking t0 t1) initS).2.workingTimeout = none
      rw [keyW]
    · show (runAux (actDeactWorking t0 t1) initS).2.timers = []
      rw [keyW]
    · intro t
      show advanceTo t (runAux (actDeactWorking t0 t1) initS).2
          = (runAux (actDeactWorking t0 t1) initS).2
      rw [keyW]
      rfl
  · refine ⟨?_, ?_, ?_, ?_, ?_⟩
    · intro s' hs'
      rw [runTrace, keyWait] at hs'
      rcases List.mem_cons.mp hs' with rfl | hs'
      · rfl
      rcases List.mem_cons.mp hs' with rfl | hs'
      · rfl
      rcases List.mem_cons.mp hs' with rfl | hs'
      · rfl
      · cases hs'
    · show (runAux (actDeactWaiting t0 t1) initS).2.targetWaitingState = 0
      rw [keyWait]
    · show (runAux (actDeactWaiting t0 t1) initS).2.waitingTimeout = none
      rw [keyWait]
    · show (runAux (actDeactWaiting t0 t1) initS).2.timers = []
      rw [keyWait]
    · intro t
      show advanceTo t (runAux (actDeactWaiting t0 t1) initS).2
          = (runAux (actDeactWaiting t0 t1) initS).2
      rw [keyWait]
      rfl

/-- Witness for `no_flicker`: activate at 0 ms, deactivate at 500 ms. -/
theorem no_flicker_witness :
    ((0 : ℕ) ≤ 500 ∧ (500 : ℕ) < 0 + 2000)
    ∧ (run (actDeactWorking 0 500) initS).targetWorkingState = 0
    ∧ (run (actDeactWorking 0 500) initS).timers = [] :=
  ⟨⟨by decide, by decide⟩,
    (no_flicker 0 500 (by decide) (by decide)).1.2.1,
    (no_flicker 0 500 (by decide) (by decide)).1.2.2.2.1⟩

/-- C2, counterexample to the claim as stated: pulses at 0 ms and
500 ms (interval shorter than the 2000 ms duration) do **not** keep the
error target at 1 until 500 + 2000 = 2500 ms — `triggerSpike` never
cancels the earlier reset timer, which fires at 2000 ms and zeroes the
target, 400 ms early. -/
theorem triggerSpike_single_flight_cex :
    (observe (spikePair 500) 2100).targetErrorState = 0 ∧ 2100 < 500 + 2000 := by
  constructor
  · decide
  · decide

/-- C2, amended: each `triggerSpike` sets the error target to 1
immediately and schedules an **additional** 2000 ms auto-reset timer;
a retrigger before expiry does not cancel the previous timer (both stay
outstanding), so with a second pulse at `t1 < 2000` the target stays 1
exactly until 2000 ms after the **first** pulse and is 0 from then on,
rather than staying 1 until `t1 + 2000`. -/
theorem triggerSpike_stacking (t1 : ℕ) (h0 : 0 < t1) (h1 : t1 < 2000) :
    (run [⟨0, .spike⟩] initS).targetErrorState = 1
    ∧ (run (spikePair t1) initS).targetErrorState = 1
    ∧ countKind .errReset (run (spikePair t1) initS).timers = 2
    ∧ (∀ t, t < 2000 → (observe (spikePair t1) t).targetErrorState = 1)
    ∧ (∀ t, 2000 ≤ t → (observe (spikePair t1) t).targetErrorState = 0) := by
  have hSA : applyCmd Cmd.spike 0 initS
      = { targetWorkingState := 0, targetWaitingState := 0, targetErrorState := 1,
          workingTimeout := none, waitingTimeout := none, workTimer := none,
          isProcessingRequest := false, timers := [⟨0, 2000, .errReset⟩], nextId := 1 } := rfl
  have hSB : applyCmd Cmd.spike t1
      ({ targetWorkingState := 0, targetWaitingState := 0, targetErrorState := 1,
         workingTimeout := none, waitingTimeout := none, workTimer := none,
         isProcessingRequest := false, timers := [⟨0, 2000, .errReset⟩], nextId := 1 } : S)
      = { targetWorkingState := 0, targetWaitingState := 0, targetErrorState := 1,
          workingTimeout := none, waitingTimeout := none, workTimer := none,
          isProcessingRequest := false,
          timers := [⟨0, 2000, .errReset⟩, ⟨1, t1 + 2000, .errReset⟩], nextId := 2 } := rfl
  have hrun1 : run [(⟨0, .spike⟩ : TCmd)] initS
      = { targetWorkingState := 0, targetWaitingState := 0, targetErrorState := 1,
          workingTimeout := none, waitingTimeout := none, workTimer := none,
          isProcessingRequest := false, timers := [⟨0, 2000, .errReset⟩], nextId := 1 } := by
    show (runAux [(⟨0, .spike⟩ : TCmd)] initS).2 = _
    rw [runAux]
    rw [advanceAux_no_due _ _ _ (by intro tm hm; simp [initS] at hm)]
    simp only [hSA, runAux]
  have hrun2 : run (spikePair t1) initS
      = { targetWorkingState := 0, targetWaitingState := 0, targetErrorState := 1,
          workingTimeout := none, waitingTimeout := none, workTimer := none,
          isProcessingRequest := false,
          timers := [⟨0, 2000, .errReset⟩, ⟨1, t1 + 2000, .errReset⟩], nextId := 2 } := by
    show (runAux (spikePair t1) initS).2 = _
    rw [spikePair, runAux]
    rw [advanceAux_no_due _ _ _ (by intro tm hm; simp [initS] at hm)]
    simp only [hSA, runAux, List.length_singleton]
    rw [advanceAux_no_due _ _ _ (by
      intro tm hm
      simp only [List.mem_singleton] at hm
      subst hm
      show ¬ (2000 ≤ t1)
      omega)]
    simp only [hSB, runAux]
  refine ⟨by rw [hrun1], by rw [hrun2], by rw [hrun2]; rfl, ?_, ?_⟩
  · intro t ht
    by_cases htt : t1 ≤ t
    · have hfil : (spikePair t1).filter (fun c => c.t ≤ t) = spikePair t1 := by
        simp [spikePair, Nat.zero_le, htt]
      rw [observe, hfil, hrun2]
      rw [advanceTo, advanceAux_no_due _ _ _ (by
        intro tm hm
        simp only [List.mem_cons, List.mem_singleton] at hm
        rcases hm with rfl | rfl | h
        · show ¬ (2000 ≤ t); omega
        · show ¬ (t1 + 2000 ≤ t); omega
        · cases h)]
    · have hfil : (spikePair t1).filter (fun c => c.t ≤ t) = [⟨0, .spike⟩] := by
        simp [spikePair, Nat.zero_le, htt]
      rw [observe, hfil, hrun1]
      rw [advanceTo, advanceAux_no_due _ _ _ (by
        intro tm hm
        simp only [List.mem_singleton] at hm
        subst hm
        show ¬ (2000 ≤ t)
        omega)]
  · intro t ht
    have htt : t1 ≤ t := by omega
    have hfil : (spikePair t1).filter (fun c => c.t ≤ t) = spikePair t1 := by
      simp [spikePair, Nat.zero_le, htt]
    rw [observe, hfil, hrun2, advanceTo]
    show (advanceAux 2 t _).2.targetErrorState = 0
    rw [advanceAux]
    rw [List.find?_cons_of_pos _ (by exact decide_eq_true ht)]
    have hfire1 : fireTimer ⟨0, 2000, .errReset⟩
        ({ targetWorkingState := 0, targetWaitingState := 0, targetErrorState := 1,
           workingTimeout := none, waitingTimeout := none, workTimer := none,
           isProcessingRequest := false,
           timers := [⟨0, 2000, .errReset⟩, ⟨1, t1 + 2000, .errReset⟩], nextId := 2 } : S)
        = { targetWorkingState := 0, targetWaitingState := 0, targetErrorState := 0,
            workingTimeout := none, waitingTimeout := none, workTimer := none,
            isProcessingRequest := false,
            timers := [⟨1, t1 + 2000, .errReset⟩], nextId := 2 } := rfl
    simp only [hfire1, advanceAux]
    by_cases h2 : t1 + 2000 ≤ t
    · rw [List.find?_cons_of_pos _ (by exact decide_eq_true h2)]
      rfl
    · rw [List.find?_cons_of_neg _ (by simpa using h2), List.find?_nil]

/-- Witness for `triggerSpike_stacking` with the second pulse at
500 ms: the target is still 1 at 1999 ms and already 0 at 2000 ms. -/
theorem triggerSpike_stacking_witness :
    ((0 : ℕ) < 500 ∧ (500 : ℕ) < 2000 ∧ (1999 : ℕ) < 2000 ∧ (2000 : ℕ) ≤ 2000)
    ∧ (observe (spikePair 500) 1999).targetErrorState = 1
    ∧ (observe (spikePair 500) 2000).targetErrorState = 0 :=
  ⟨⟨by decide, by decide, by decide, by decide⟩,
    (triggerSpike_stacking 500 (by decide) (by decide)).2.2.2.1 1999 (by decide),
    (triggerSpike_stacking 500 (by decide) (by decide)).2.2.2.2 2000 (by decide)⟩

theorem setWorkingState_true_clean (t : ℕ) (s : S) (h0 : s.targetWorkingState = 0)
    (hn : s.workingTimeout = none) :
    setWorkingState true t s
      = { schedule .workAct (t + 2000) s with workingTimeout := some s.nextId } := by
  rw [setWorkingState]
  simp only [if_true]
  rw [if_pos ⟨by rw [h0]; norm_num, hn⟩]

theorem setWorkingState_true_pending (t : ℕ) (s : S) {j : ℕ}
    (hw : s.workingTimeout = some j) : setWorkingState true t s = s := by
  rw [setWorkingState]
  simp only [if_true]
  rw [if_neg]
  rintro ⟨-, hn⟩
  rw [hw] at hn
  cases hn

theorem setWorkingState_true_active (t : ℕ) (s : S)
    (h1 : s.targetWorkingState = 1) : setWorkingState true t s = s := by
  rw [setWorkingState]
  simp only [if_true]
  rw [if_neg]
  rintro ⟨hlt, -⟩
  rw [h1] at hlt
  norm_num at hlt

theorem updateIcon_clean (icon : String) (hi : icon ∈ WORKING_ICONS) (t ja n : ℕ)
    (hja : ja < n) :
    updateStateFromIcon icon t
      { targetWorkingState := 0, targetWaitingState := 0, targetErrorState := 0,
        workingTimeout := none, waitingTimeout := none, workTimer := some ja,
        isProcessingRequest := false, timers := [], nextId := n }
      = { targetWorkingState := 0, targetWaitingState := 0, targetErrorState := 0,
          workingTimeout := some n, waitingTimeout := none, workTimer := some (n + 1),
          isProcessingRequest := false,
          timers := [⟨n, t + 2000, .workAct⟩, ⟨n + 1, t + 2000, .appWorkOff⟩],
          nextId := n + 2 } := by
  have hs1 : setWorkingState true t
      ({ targetWorkingState := 0, targetWaitingState := 0, targetErrorState := 0,
         workingTimeout := none, waitingTimeout := none, workTimer := some ja,
         isProcessingRequest := false, timers := [], nextId := n } : S)
      = { targetWorkingState := 0, targetWaitingState := 0, targetErrorState := 0,
          workingTimeout := some n, waitingTimeout := none, workTimer := some ja,
          isProcessingRequest := false, timers := [⟨n, t + 2000, .workAct⟩],
          nextId := n + 1 } :=
    (setWorkingState_true_clean t _ rfl rfl).trans rfl
  rw [updateStateFromIcon, if_neg (show ¬((false : Bool) = true) from Bool.false_ne_true),
    if_pos hi, hs1]
  have hbne : (n != ja) = true := by
    simp only [bne_iff_ne, ne_eq]
    omega
  simp [removeId, List.filter, schedule, hbne]

theorem updateIcon_pendingA (icon : String) (hi : icon ∈ WORKING_ICONS)
    (t jw dW ja dA n : ℕ) (hjwja : jw < ja) :
    updateStateFromIcon icon t
      { targetWorkingState := 0, targetWaitingState := 0, targetErrorState := 0,
        workingTimeout := some jw, waitingTimeout := none, workTimer := some ja,
        isProcessingRequest := false,
        timers := [⟨jw, dW, .workAct⟩, ⟨ja, dA, .appWorkOff⟩], nextId := n }
      = { targetWorkingState := 0, targetWaitingState := 0, targetErrorState := 0,
          workingTimeout := some jw, waitingTimeout := none, workTimer := some n,
          isProcessingRequest := false,
          timers := [⟨jw, dW, .workAct⟩, ⟨n, t + 2000, .appWorkOff⟩], nextId := n + 1 } := by
  have hs1 : setWorkingState true t
      ({ targetWorkingState := 0, targetWaitingState := 0, targetErrorState := 0,
         workingTimeout := some jw, waitingTimeout := none, workTimer := some ja,
         isProcessingRequest := false,
         timers := [⟨jw, dW, .workAct⟩, ⟨ja, dA, .appWorkOff⟩], nextId := n } : S)
      = _ := setWorkingState_true_pending t _ (show _ = some jw from rfl)
  rw [updateStateFromIcon, if_neg (show ¬((false : Bool) = true) from Bool.false_ne_true),
    if_pos hi, hs1]
  have h1 : (jw != ja) = true := by
    simp only [bne_iff_ne, ne_eq]
    omega
  have h2 : (ja != ja) = false := by simp
  simp [removeId, List.filter, schedule, h1, h2]

theorem updateIcon_activeB (icon : String) (hi : icon ∈ WORKING_ICONS)
    (t ja dA n : ℕ) :
    updateStateFromIcon icon t
      { targetWorkingState := 1, targetWaitingState := 0, targetErrorState := 0,
        workingTimeout := none, waitingTimeout := none, workTimer := some ja,
        isProcessingRequest := false,
        timers := [⟨ja, dA, .appWorkOff⟩], nextId := n }
      = { targetWorkingState := 1, targetWaitingState := 0, targetErrorState := 0,
          workingTimeout := none, waitingTimeout := none, workTimer := some n,
          isProcessingRequest := false,
          timers := [⟨n, t + 2000, .appWorkOff⟩], nextId := n + 1 } := by
  have hs1 : setWorkingState true t
      ({ targetWorkingState := 1, targetWaitingState := 0, targetErrorState := 0,
         workingTimeout := none, waitingTimeout := none, workTimer := some ja,
         isProcessingRequest := false,
         timers := [⟨ja, dA, .appWorkOff⟩], nextId := n } : S)
      = _ := setWorkingState_true_active t _ (show _ = (1 : ℚ) from rfl)
  rw [updateStateFromIcon, if_neg (show ¬((false : Bool) = true) from Bool.false_ne_true),
    if_pos hi, hs1]
  have h2 : (ja != ja) = false := by simp
  simp [removeId, List.filter, schedule, h2]

theorem fire_workAct_pendingA (jw dW ja dA n : ℕ) (hjwja : jw < ja) :
    fireTimer ⟨jw, dW, .workAct⟩
      { targetWorkingState := 0, targetWaitingState := 0, targetErrorState := 0,
        workingTimeout := some jw, waitingTimeout := none, workTimer := some ja,
        isProcessingRequest := false,
        timers := [⟨jw, dW, .workAct⟩, ⟨ja, dA, .appWorkOff⟩], nextId := n }
      = { targetWorkingState := 1, targetWaitingState := 0, targetErrorState := 0,
          workingTimeout := none, waitingTimeout := none, workTimer := some ja,
          isProcessingRequest := false,
          timers := [⟨ja, dA, .appWorkOff⟩], nextId := n } := by
  have h1 : (jw != jw) = false := by simp
  have h2 : (ja != jw) = true := by
    simp only [bne_iff_ne, ne_eq]
    omega
  simp [fireTimer, removeId, List.filter, h1, h2]

theorem fire_appWorkOff_activeB (ja dA n : ℕ) :
    fireTimer ⟨ja, dA, .appWorkOff⟩
      { targetWorkingState := 1, targetWaitingState := 0, targetErrorState := 0,
        workingTimeout := none, waitingTimeout := none, workTimer := some ja,
        isProcessingRequest := false,
        timers := [⟨ja, dA, .appWorkOff⟩], nextId := n }
      = { targetWorkingState := 0, targetWaitingState := 0, targetErrorState := 0,
          workingTimeout := none, waitingTimeout := none, workTimer := some ja,
          isProcessingRequest := false, timers := [], nextId := n } := by
  have h2 : (ja != ja) = false := by simp
  have hfire : fireTimer ⟨ja, dA, .appWorkOff⟩
      ({ targetWorkingState := 1, targetWaitingState := 0, targetErrorState := 0,
         workingTimeout := none, waitingTimeout := none, workTimer := some ja,
         isProcessingRequest := false,
         timers := [⟨ja, dA, .appWorkOff⟩], nextId := n } : S)
      = setWorkingState false dA
          { targetWorkingState := 1, targetWaitingState := 0, targetErrorState := 0,
            workingTimeout := none, waitingTimeout := none, workTimer := some ja,
            isProcessingRequest := false, timers := [], nextId := n } := by
    simp [fireTimer, removeId, List.filter, h2]
  rw [hfire, setWorkingState]
  simp only [Bool.false_eq_true, if_false]

theorem advanceTo_no_due (t : ℕ) (s : S) (h : ∀ tm ∈ s.timers, ¬ tm.deadline ≤ t) :
    advanceTo t s = s := by
  rw [advanceTo, advanceAux_no_due _ _ _ h]

theorem invC10_step (icon : String) (hi : icon ∈ WORKING_ICONS) (tl t : ℕ) (hlt : tl < t)
    (s : S) (h : InvC10 tl s) :
    InvC10 t (applyCmd (.icon icon) t (advanceTo t s)) := by
  obtain ⟨ja, n, hjan, hcase⟩ := h
  rcases hcase with ⟨jw, dW, hjwja, htldW, hdWle, rfl⟩ | rfl
  · by_cases hdue : dW ≤ t
    · by_cases happ : tl + 2000 ≤ t
      · have hadv : advanceTo t
            { targetWorkingState := 0, targetWaitingState := 0, targetErrorState := 0,
              workingTimeout := some jw, waitingTimeout := none, workTimer := some ja,
              isProcessingRequest := false,
              timers := [⟨jw, dW, .workAct⟩, ⟨ja, tl + 2000, .appWorkOff⟩], nextId := n }
            = { targetWorkingState := 0, targetWaitingState := 0, targetErrorState := 0,
                workingTimeout := none, waitingTimeout := none, workTimer := some ja,
                isProcessingRequest := false, timers := [], nextId := n } := by
          rw [advanceTo]
          show (advanceAux 2 t _).2 = _
          rw [advanceAux, List.find?_cons_of_pos _ (by exact decide_eq_true hdue)]
          simp only [fire_workAct_pendingA jw dW ja (tl + 2000) n hjwja, advanceAux]
          rw [List.find?_cons_of_pos _ (by exact decide_eq_true happ)]
          simp only [fire_appWorkOff_activeB ja (tl + 2000) n, advanceAux]
        rw [hadv]
        show InvC10 t (updateStateFromIcon icon t _)
        rw [updateIcon_clean icon hi t ja n (by omega)]
        exact ⟨n + 1, n + 2, by omega,
          Or.inl ⟨n, t + 2000, by omega, by omega, by omega, rfl⟩⟩
      · have hadv : advanceTo t
            { targetWorkingState := 0, targetWaitingState := 0, targetErrorState := 0,
              workingTimeout := some jw, waitingTimeout := none, workTimer := some ja,
              isProcessingRequest := false,
              timers := [⟨jw, dW, .workAct⟩, ⟨ja, tl + 2000, .appWorkOff⟩], nextId := n }
            = { targetWorkingState := 1, targetWaitingState := 0, targetErrorState := 0,
                workingTimeout := none, waitingTimeout := none, workTimer := some ja,
                isProcessingRequest := false,
                timers := [⟨ja, tl + 2000, .appWorkOff⟩], nextId := n } := by
          rw [advanceTo]
          show (advanceAux 2 t _).2 = _
          rw [advanceAux, List.find?_cons_of_pos _ (by exact decide_eq_true hdue)]
          simp only [fire_workAct_pendingA jw dW ja (tl + 2000) n hjwja, advanceAux]
          rw [List.find?_cons_of_neg _ (by simpa using happ), List.find?_nil]
        rw [hadv]
        show InvC10 t (updateStateFromIcon icon t _)
        rw [updateIcon_activeB icon hi t ja (tl + 2000) n]
        exact ⟨n, n + 1, by omega, Or.inr rfl⟩
    · have hadv : advanceTo t
          { targetWorkingState := 0, targetWaitingState := 0, targetErrorState := 0,
            workingTimeout := some jw, waitingTimeout := none, workTimer := some ja,
            isProcessingRequest := false,
            timers := [⟨jw, dW, .workAct⟩, ⟨ja, tl + 2000, .appWorkOff⟩], nextId := n }
          = { targetWorkingState := 0, targetWaitingState := 0, targetErrorState := 0,
              workingTimeout := some jw, waitingTimeout := none, workTimer := some ja,
              isProcessingRequest := false,
              timers := [⟨jw, dW, .workAct⟩, ⟨ja, tl + 2000, .appWorkOff⟩], nextId := n } :=
        advanceTo_no_due _ _ (by
          intro tm hm
          simp only [List.mem_cons, List.mem_singleton] at hm
          rcases hm with rfl | rfl | hfalse
          · show ¬ (dW ≤ t); omega
          · show ¬ (tl + 2000 ≤ t); omega
          · cases hfalse)
      rw [hadv]
      show InvC10 t (updateStateFromIcon icon t _)
      rw [updateIcon_pendingA icon hi t jw dW ja (tl + 2000) n hjwja]
      exact ⟨n, n + 1, by omega,
        Or.inl ⟨jw, dW, by omega, by omega, by omega, rfl⟩⟩
  · by_cases happ : tl + 2000 ≤ t
    · have hadv : advanceTo t
          { targetWorkingState := 1, targetWaitingState := 0, targetErrorState := 0,
            workingTimeout := none, waitingTimeout := none, workTimer := some ja,
            isProcessingRequest := false,
            timers := [⟨ja, tl + 2000, .appWorkOff⟩], nextId := n }
          = { targetWorkingState := 0, targetWaitingState := 0, targetErrorState := 0,
              workingTimeout := none, waitingTimeout := none, workTimer := some ja,
              isProcessingRequest := false, timers := [], nextId := n } := by
        rw [advanceTo]
        show (advanceAux 1 t _).2 = _
        rw [advanceAux, List.find?_cons_of_pos _ (by exact decide_eq_true happ)]
        simp only [fire_appWorkOff_activeB ja (tl + 2000) n, advanceAux]
      rw [hadv]
      show InvC10 t (updateStateFromIcon icon t _)
      rw [updateIcon_clean icon hi t ja n (by omega)]
      exact ⟨n + 1, n + 2, by omega,
        Or.inl ⟨n, t + 2000, by omega, by omega, by omega, rfl⟩⟩
    · have hadv : advanceTo t
          { targetWorkingState := 1, targetWaitingState := 0, targetErrorState := 0,
            workingTimeout := none, waitingTimeout := none, workTimer := some ja,
            isProcessingRequest := false,
            timers := [⟨ja, tl + 2000, .appWorkOff⟩], nextId := n }
          = { targetWorkingState := 1, targetWaitingState := 0, targetErrorState := 0,
              workingTimeout := none, waitingTimeout := none, workTimer := some ja,
              isProcessingRequest := false,
              timers := [⟨ja, tl + 2000, .appWorkOff⟩], nextId := n } :=
        advanceTo_no_due _ _ (by
          intro tm hm
          simp only [List.mem_singleton] at hm
          subst hm
          show ¬ (tl + 2000 ≤ t)
          omega)
      rw [hadv]
      show InvC10 t (updateStateFromIcon icon t _)
      rw [updateIcon_activeB icon hi t ja (tl + 2000) n]
      exact ⟨n, n + 1, by omega, Or.inr rfl⟩

theorem updateIcon_initial (icon : String) (hi : icon ∈ WORKING_ICONS) (t : ℕ) :
    updateStateFromIcon icon t initS
      = { targetWorkingState := 0, targetWaitingState := 0, targetErrorState := 0,
          workingTimeout := some 0, waitingTimeout := none, workTimer := some 1,
          isProcessingRequest := false,
          timers := [⟨0, t + 2000, .workAct⟩, ⟨1, t + 2000, .appWorkOff⟩], nextId := 2 } := by
  have hs1 : setWorkingState true t initS
      = { targetWorkingState := 0, targetWaitingState := 0, targetErrorState := 0,
          workingTimeout := some 0, waitingTimeout := none, workTimer := none,
          isProcessingRequest := false, timers := [⟨0, t + 2000, .workAct⟩], nextId := 1 } :=
    (setWorkingState_true_clean t initS rfl rfl).trans rfl
  rw [updateStateFromIcon, if_neg (show ¬(initS.isProcessingRequest = true) from Bool.false_ne_true),
    if_pos hi, hs1]
  rfl

theorem invC10_start (icon : String) (hi : icon ∈ WORKING_ICONS) (t : ℕ) :
    InvC10 t (applyCmd (Cmd.icon icon) t (advanceTo t initS)) := by
  have hadv : advanceTo t initS = initS :=
    advanceTo_no_due _ _ (by intro tm hm; simp [initS] at hm)
  rw [hadv]
  show InvC10 t (updateStateFromIcon icon t initS)
  rw [updateIcon_initial icon hi t]
  exact ⟨1, 2, by omega, Or.inl ⟨0, t + 2000, by omega, by omega, by omega, rfl⟩⟩

theorem chain_append_left {α : Type _} {R : α → α → Prop} :
    ∀ {a : α} {l1 l2 : List α}, List.Chain R a (l1 ++ l2) → List.Chain R a l1 := by
  intro a l1
  induction l1 generalizing a with
  | nil => intro l2 _; exact List.Chain.nil
  | cons b l1 ih =>
    intro l2 h
    obtain ⟨hab, h'⟩ := List.chain_cons.mp h
    exact List.Chain.cons hab (ih h')

theorem invC10_run (icon : String) (hi : icon ∈ WORKING_ICONS) :
    ∀ (ts : List ℕ) (tlast : ℕ) (s : S), InvC10 tlast s → List.Chain (· < ·) tlast ts →
      InvC10 (ts.getLastD tlast) (run (iconCmds icon ts) s) := by
  intro ts
  induction ts with
  | nil => intro tlast s h _; exact h
  | cons t ts ih =>
    intro tlast s h hch
    obtain ⟨hlt, hch'⟩ := List.chain_cons.mp hch
    have hstep : InvC10 t (applyCmd (Cmd.icon icon) t (advanceTo t s)) :=
      invC10_step icon hi tlast t hlt s h
    have hrw : run (iconCmds icon (t :: ts)) s
        = run (iconCmds icon ts) (applyCmd (Cmd.icon icon) t (advanceTo t s)) := rfl
    rw [List.getLastD_cons, hrw]
    exact ih t _ hstep hch'

theorem invC10_final (tl : ℕ) (s : S) (h : InvC10 tl s) :
    (advanceTo (tl + 2000) s).targetWorkingState = 0
    ∧ (advanceTo (tl + 2000) s).workingTimeout = none
    ∧ (advanceTo (tl + 2000) s).timers = [] := by
  obtain ⟨ja, n, hjan, hcase⟩ := h
  rcases hcase with ⟨jw, dW, hjwja, htldW, hdWle, rfl⟩ | rfl
  · have hadv : advanceTo (tl + 2000)
        { targetWorkingState := 0, targetWaitingState := 0, targetErrorState := 0,
          workingTimeout := some jw, waitingTimeout := none, workTimer := some ja,
          isProcessingRequest := false,
          timers := [⟨jw, dW, .workAct⟩, ⟨ja, tl + 2000, .appWorkOff⟩], nextId := n }
        = { targetWorkingState := 0, targetWaitingState := 0, targetErrorState := 0,
            workingTimeout := none, waitingTimeout := none, workTimer := some ja,
            isProcessingRequest := false, timers := [], nextId := n } := by
      rw [advanceTo]
      show (advanceAux 2 (tl + 2000) _).2 = _
      rw [advanceAux, List.find?_cons_of_pos _ (by exact decide_eq_true (by omega : dW ≤ tl + 2000))]
      simp only [fire_workAct_pendingA jw dW ja (tl + 2000) n hjwja, advanceAux]
      rw [List.find?_cons_of_pos _ (by exact decide_eq_true (Nat.le_refl (tl + 2000)))]
      simp only [fire_appWorkOff_activeB ja (tl + 2000) n, advanceAux]
    rw [hadv]
    exact ⟨rfl, rfl, rfl⟩
  · have hadv : advanceTo (tl + 2000)
        { targetWorkingState := 1, targetWaitingState := 0, targetErrorState := 0,
          workingTimeout := none, waitingTimeout := none, workTimer := some ja,
          isProcessingRequest := false,
          timers := [⟨ja, tl + 2000, .appWorkOff⟩], nextId := n }
        = { targetWorkingState := 0, targetWaitingState := 0, targetErrorState := 0,
            workingTimeout := none, waitingTimeout := none, workTimer := some ja,
            isProcessingRequest := false, timers := [], nextId := n } := by
      rw [advanceTo]
      show (advanceAux 1 (tl + 2000) _).2 = _
      rw [advanceAux, List.find?_cons_of_pos _ (by exact decide_eq_true (Nat.le_refl (tl + 2000)))]
      simp only [fire_appWorkOff_activeB ja (tl + 2000) n, advanceAux]
    rw [hadv]
    exact ⟨rfl, rfl, rfl⟩

/-- C10: with no explicit user request in flight, a stream of
working-classified icons at strictly increasing times `t0 :: ts` keeps
exactly one app-level 2000 ms auto-deactivation timer armed — after
every prefix of the stream the single `appWorkOff` timer's deadline is
2000 ms past that prefix's last icon (each icon resets it), and the
working channel is activated (already at 1 or with activation pending);
2000 ms after the *last* icon the timer fires and deactivates the
working channel (`setWorkingState(false)`: target 0, handle cleared,
nothing left pending) even though no idle icon or explicit deactivation
was ever received. -/
theorem icon_auto_deactivation (icon : String) (t0 : ℕ) (ts : List ℕ)
    (hi : icon ∈ WORKING_ICONS) (hch : List.Chain (· < ·) t0 ts) :
    (∀ pre suf, ts = pre ++ suf →
      ∃ ja, (run (iconCmds icon (t0 :: pre)) initS).workTimer = some ja
        ∧ List.filter (fun tm => tm.kind == TKind.appWorkOff)
            (run (iconCmds icon (t0 :: pre)) initS).timers
            = [⟨ja, pre.getLastD t0 + 2000, TKind.appWorkOff⟩]
        ∧ ((run (iconCmds icon (t0 :: pre)) initS).targetWorkingState = 1
            ∨ (run (iconCmds icon (t0 :: pre)) initS).workingTimeout ≠ none))
    ∧ (advanceTo (ts.getLastD t0 + 2000)
        (run (iconCmds icon (t0 :: ts)) initS)).targetWorkingState = 0
    ∧ (advanceTo (ts.getLastD t0 + 2000)
        (run (iconCmds icon (t0 :: ts)) initS)).workingTimeout = none
    ∧ (advanceTo (ts.getLastD t0 + 2000)
        (run (iconCmds icon (t0 :: ts)) initS)).timers = [] := by
  have hmain : ∀ l : List ℕ, List.Chain (· < ·) t0 l →
      InvC10 (l.getLastD t0) (run (iconCmds icon (t0 :: l)) initS) := by
    intro l hchl
    have h0 : InvC10 t0 (applyCmd (Cmd.icon icon) t0 (advanceTo t0 initS)) :=
      invC10_start icon hi t0
    have hrw : run (iconCmds icon (t0 :: l)) initS
        = run (iconCmds icon l) (applyCmd (Cmd.icon icon) t0 (advanceTo t0 initS)) := rfl
    rw [hrw]
    exact invC10_run icon hi l t0 _ h0 hchl
  refine ⟨?_, ?_⟩
  · intro pre suf hdec
    have hchpre : List.Chain (· < ·) t0 pre := chain_append_left (hdec ▸ hch)
    obtain ⟨ja, n, hjan, hcase⟩ := hmain pre hchpre
    rcases hcase with ⟨jw, dW, hjwja, -, -, heq⟩ | heq
    · refine ⟨ja, ?_, ?_, Or.inr ?_⟩
      · rw [heq]
      · rw [heq]
        rfl
      · rw [heq]
        exact fun hcon => Option.noConfusion hcon
    · refine ⟨ja, ?_, ?_, Or.inl ?_⟩
      · rw [heq]
      · rw [heq]
        rfl
      · rw [heq]
  · exact invC10_final (ts.getLastD t0) _ (hmain ts hch)

/-- Witness for `icon_auto_deactivation`: icons at 0 ms and 500 ms,
observation at 2500 ms. -/
theorem icon_auto_deactivation_witness :
    (("🧠" ∈ WORKING_ICONS) ∧ List.Chain (· < ·) 0 [500])
    ∧ (advanceTo ([500].getLastD 0 + 2000)
        (run (iconCmds "🧠" [0, 500]) initS)).targetWorkingState = 0 :=
  ⟨⟨by decide, List.Chain.cons (by decide) List.Chain.nil⟩,
    (icon_auto_deactivation "🧠" 0 [500] (by decide)
      (List.Chain.cons (by decide) List.Chain.nil)).2.1⟩
